import Mathlib

/-!
Verification of the core behaviours of the ATC-AI-Agent repository.

Two code bases are embedded here:

* `ATC.Agent`: the runway/scheduler model of `agent/airport/scheduler.py`,
  `agent/airport/airport.py`, `airport/flight.py` and `airway/runway.py`.
  The scheduler stores `ScheduleEntry` values in a CPython `heapq` binary
  heap, so the relevant part of CPython's `heapq` module (`heappush`,
  `heappop`, `_siftdown`, `_siftup`) is embedded faithfully as well.

* `ATC.SimApp`: the real-time simulation engine of
  `ATC-Simulator-App/app/simulation.py`.

Conventions used throughout:

* Python floats are modelled as exact rationals (`ℚ`).
* Comparisons of Euclidean distances `sqrt(dx^2+dy^2) < c` (with `c > 0`)
  are embedded as the equivalent `dx^2+dy^2 < c^2` on squared distances,
  because `sqrt` is irrational; for non-negative `c` the two are
  equivalent over the reals.
* Trigonometric functions (`sin`, `cos`, `atan2`), which are irrational,
  are supplied by an oracle record `Trig`; every theorem quantifies over
  all oracles, hence holds in particular for the mathematical functions.
* Python's `%` on floats (used for heading normalisation) is
  `pymod a m = a - m * ⌊a / m⌋`, which for `m > 0` lands in `[0, m)`,
  exactly like CPython's float `%` with positive modulus.
* The recursive heap manipulation loops are written with an explicit
  fuel argument that provably dominates the loop depth, so that all
  definitions compute by kernel reduction; lemmas carry the (always
  satisfied) fuel bounds as hypotheses.
-/

namespace ATC

/-! ## Part 1: CPython `heapq`

The agent's `FlightScheduler` (agent/airport/scheduler.py) stores
`ScheduleEntry` objects in a `heapq` min-heap.  `ScheduleEntry.__lt__`
compares only the integer `value` field, so the heap functions are
embedded generically over a value projection `val : E → Int`.

The embedding follows CPython's `heapq.py`:

    def heappush(heap, item):
        heap.append(item)
        _siftdown(heap, 0, len(heap)-1)

    def heappop(heap):
        lastelt = heap.pop()
        if heap:
            returnitem = heap[0]
            heap[0] = lastelt
            _siftup(heap, 0)
            return returnitem
        return lastelt
-/

section Heapq

variable {E : Type} [Inhabited E] (val : E → Int)

/-- CPython `heapq._siftdown(heap, startpos, pos)`: bubble `newitem`
(the conceptual content of slot `pos`) towards the root until its parent
is not larger.  Faithful to the unbounded `while` loop whenever
`pos ≤ fuel`, because each iteration moves `pos` to `(pos-1)/2 < pos`. -/
def siftdownAux (newitem : E) (startpos : Nat) : Nat → List E → Nat → List E
  | 0, l, pos => l.set pos newitem
  | fuel + 1, l, pos =>
    if startpos < pos then
      if val newitem < val (l.getD ((pos - 1) / 2) default) then
        siftdownAux newitem startpos fuel
          (l.set pos (l.getD ((pos - 1) / 2) default)) ((pos - 1) / 2)
      else l.set pos newitem
    else l.set pos newitem

/-- CPython `heapq._siftup(heap, pos)` descent loop: move the smaller
child up until a leaf is reached, then place `newitem` there and let
`_siftdown` bubble it up.  Faithful whenever `l.length ≤ fuel + pos`,
because each iteration moves `pos` to a child index `≥ pos + 1`. -/
def siftupAux (newitem : E) (startpos : Nat) : Nat → List E → Nat → List E
  | 0, l, pos => siftdownAux val newitem startpos pos (l.set pos newitem) pos
  | fuel + 1, l, pos =>
    if 2 * pos + 1 < l.length then
      -- `childpos = 2*pos+1`, `rightpos = 2*pos+2`; the right child is
      -- chosen when it exists and `not heap[childpos] < heap[rightpos]`.
      if 2 * pos + 2 < l.length ∧
          ¬ val (l.getD (2 * pos + 1) default) < val (l.getD (2 * pos + 2) default)
      then
        siftupAux newitem startpos fuel
          (l.set pos (l.getD (2 * pos + 2) default)) (2 * pos + 2)
      else
        siftupAux newitem startpos fuel
          (l.set pos (l.getD (2 * pos + 1) default)) (2 * pos + 1)
    else siftdownAux val newitem startpos pos (l.set pos newitem) pos

/-- CPython `heapq.heappush(heap, item)`. -/
def heappush (l : List E) (item : E) : List E :=
  siftdownAux val item 0 l.length (l ++ [item]) l.length

/-- CPython `heapq._siftup(heap, pos)` (wrapper reading `newitem = heap[pos]`). -/
def siftup (l : List E) (pos : Nat) : List E :=
  siftupAux val (l.getD pos default) pos l.length l pos

/-- CPython `heapq.heappop(heap)`; `none` models the `IndexError` on an
empty heap (the scheduler never pops an empty heap). -/
def heappop (l : List E) : Option (E × List E) :=
  match l with
  | [] => none
  | a :: t =>
    let lastelt := (a :: t).getLast (List.cons_ne_nil a t)
    let rest := (a :: t).dropLast
    if rest.isEmpty then some (lastelt, [])
    else some (rest.getD 0 default, siftup val (rest.set 0 lastelt) 0)

/-- Repeatedly `heappop` until the heap is empty, collecting the popped
elements in order.  Faithful whenever `l.length ≤ fuel` since every pop
shrinks the heap by exactly one element. -/
def popAll : Nat → List E → List E
  | 0, _ => []
  | fuel + 1, l =>
    match heappop val l with
    | none => []
    | some (e, l2) => e :: popAll fuel l2

/-- Value stored at heap slot `i` (read through the `__lt__` projection). -/
def hval (l : List E) (i : Nat) : Int := val (l.getD i default)

/-- The binary min-heap invariant maintained by CPython `heapq`:
every non-root slot is not smaller than its parent slot `(i-1)/2`. -/
def HeapInv (l : List E) : Prop :=
  ∀ i, 0 < i → i < l.length → hval val l ((i - 1) / 2) ≤ hval val l i


end Heapq

/-! ## Part 2: agent airport model

Embeds `airport/flight.py`, `airport/runway.py`,
`agent/airport/scheduler.py` and `agent/airport/airport.py`. -/

namespace Agent

/-- `airport/flight.py` `FlightStatus` (the scheduler's operation kind). -/
inductive FlightStatus
  | LANDING
  | TAKEOFF
  | MAYDAY
deriving DecidableEq, Inhabited, Repr

/-- `airport/flight.py` `Flight`: identifiers and route; the timing
attributes start out `None` and are never written by the embedded code. -/
structure Flight where
  flight_id : String
  flight_number : String
  origin : String
  destination : String
  scheduled_time : Option Int := none
  actual_time : Option Int := none
deriving DecidableEq, Inhabited, Repr

/-- `agent/airport/scheduler.py` `SlotInfo`. -/
structure SlotInfo where
  start_time : Int
  end_time : Int
deriving DecidableEq, Inhabited, Repr

/-- `agent/airport/scheduler.py` `ScheduleEntry`.  `__lt__` compares
only the `value` field. -/
structure ScheduleEntry where
  value : Int
  flight : Flight
  slot_info : SlotInfo
  used_for : FlightStatus
deriving DecidableEq, Inhabited, Repr

/-- The projection `ScheduleEntry.__lt__` compares by. -/
def entryVal (e : ScheduleEntry) : Int := e.value

/-- `agent/airport/scheduler.py` `FlightScheduler`: a `heapq` min-heap
of schedule entries. -/
structure FlightScheduler where
  schedule_heap : List ScheduleEntry := []
deriving DecidableEq, Inhabited, Repr

/-- `FlightScheduler.add_landing` (priority = `landing_time`). -/
def FlightScheduler.add_landing (s : FlightScheduler) (flight : Flight)
    (landing_time : Int) (slot_info : SlotInfo) : FlightScheduler :=
  ⟨heappush entryVal s.schedule_heap
    ⟨landing_time, flight, slot_info, FlightStatus.LANDING⟩⟩

/-- `FlightScheduler.add_takeoff` (priority = `scheduled_time`). -/
def FlightScheduler.add_takeoff (s : FlightScheduler) (flight : Flight)
    (scheduled_time : Int) (slot_info : SlotInfo) : FlightScheduler :=
  ⟨heappush entryVal s.schedule_heap
    ⟨scheduled_time, flight, slot_info, FlightStatus.TAKEOFF⟩⟩

/-- `FlightScheduler.add_mayday` (priority = the sentinel `-1`). -/
def FlightScheduler.add_mayday (s : FlightScheduler) (flight : Flight)
    (slot_info : SlotInfo) : FlightScheduler :=
  ⟨heappush entryVal s.schedule_heap
    ⟨-1, flight, slot_info, FlightStatus.MAYDAY⟩⟩

/-- `FlightScheduler.get_next_flight`: pop the heap root, or `None`
when the schedule is empty (the source guards with `if self.schedule_heap`). -/
def FlightScheduler.get_next_flight (s : FlightScheduler) :
    Option ScheduleEntry × FlightScheduler :=
  match heappop entryVal s.schedule_heap with
  | some (e, h2) => (some e, ⟨h2⟩)
  | none => (none, s)

/-- `FlightScheduler.get_schedule_size`. -/
def FlightScheduler.get_schedule_size (s : FlightScheduler) : Nat :=
  s.schedule_heap.length

/-- One call to `schedule_landing` / `schedule_takeoff` /
`schedule_mayday` as seen by the scheduler (the `Airport` wrappers build
the `SlotInfo` from the operation time and duration; `schedule_mayday` explicitly
uses the wall clock, supplied here as the slot itself). -/
inductive SchedulerOp
  | landing (flight : Flight) (landing_time : Int) (slot_info : SlotInfo)
  | takeoff (flight : Flight) (scheduled_time : Int) (slot_info : SlotInfo)
  | mayday (flight : Flight) (slot_info : SlotInfo)
deriving DecidableEq, Repr

def applyOp (s : FlightScheduler) : SchedulerOp → FlightScheduler
  | SchedulerOp.landing f t sl => s.add_landing f t sl
  | SchedulerOp.takeoff f t sl => s.add_takeoff f t sl
  | SchedulerOp.mayday f sl => s.add_mayday f sl

def applyOps (s : FlightScheduler) (ops : List SchedulerOp) : FlightScheduler :=
  ops.foldl applyOp s

/-- The `ScheduleEntry` each operation pushes. -/
def entryOf : SchedulerOp → ScheduleEntry
  | SchedulerOp.landing f t sl => ⟨t, f, sl, FlightStatus.LANDING⟩
  | SchedulerOp.takeoff f t sl => ⟨t, f, sl, FlightStatus.TAKEOFF⟩
  | SchedulerOp.mayday f sl => ⟨-1, f, sl, FlightStatus.MAYDAY⟩

/-- Drain the schedule by repeated `get_next_flight` calls. -/
def FlightScheduler.popAllEntries (s : FlightScheduler) : List ScheduleEntry :=
  popAll entryVal s.schedule_heap.length s.schedule_heap

/-- `airport/runway.py` `RunwayStatus`. -/
inductive RunwayStatus
  | AVAILABLE
  | OCCUPIED
  | MAINTENANCE
deriving DecidableEq, Inhabited, Repr

/-- `airport/runway.py` `Runway` operational state. -/
structure Runway where
  runway_id : String
  runway_name : String
  direction : String
  status : RunwayStatus := RunwayStatus.AVAILABLE
  current_flight : Option Flight := none
  operation_start_time : Option Int := none
  operation_end_time : Option Int := none
deriving DecidableEq, Inhabited, Repr

/-- `Runway.assign_flight`: occupy an available runway, recording the
flight and its operation window; returns the mutated runway and the
success flag. -/
def Runway.assign_flight (r : Runway) (flight : Flight)
    (start_time end_time : Int) : Runway × Bool :=
  if r.status ≠ RunwayStatus.AVAILABLE then (r, false)
  else
    ({ r with
        status := RunwayStatus.OCCUPIED
        current_flight := some flight
        operation_start_time := some start_time
        operation_end_time := some end_time }, true)

/-- `agent/airport/airport.py` `Airport`. -/
structure Airport where
  airport_code : String
  airport_name : String
  runways : List Runway := []
  flight_scheduler : FlightScheduler := {}
deriving DecidableEq, Inhabited, Repr

/-- `Airport.add_runway`. -/
def Airport.add_runway (a : Airport) (runway : Runway) : Airport :=
  { a with runways := a.runways ++ [runway] }

/-- `Airport.get_available_runway`: the first runway in list order whose
status is `AVAILABLE`. -/
def Airport.get_available_runway (a : Airport) : Option Runway :=
  a.runways.find? (fun r => r.status == RunwayStatus.AVAILABLE)

/-- `Airport.schedule_landing`. -/
def Airport.schedule_landing (a : Airport) (flight : Flight)
    (landing_time duration : Int) : Airport :=
  { a with flight_scheduler := (a.flight_scheduler.add_landing flight
      landing_time ⟨landing_time, landing_time + duration⟩) }

/-- `Airport.schedule_takeoff`. -/
def Airport.schedule_takeoff (a : Airport) (flight : Flight)
    (takeoff_time duration : Int) : Airport :=
  { a with flight_scheduler := (a.flight_scheduler.add_takeoff flight
      takeoff_time ⟨takeoff_time, takeoff_time + duration⟩) }

/-- `Airport.schedule_mayday`; `current_time = int(time.time())` is the
caller-supplied wall clock. -/
def Airport.schedule_mayday (a : Airport) (flight : Flight)
    (current_time duration : Int) : Airport :=
  { a with flight_scheduler := (a.flight_scheduler.add_mayday flight
      ⟨current_time, current_time + duration⟩) }

/-- The combined effect of `get_available_runway` followed by
`runway.assign_flight` on the runway object shared with the list:
the first `AVAILABLE` runway in list order is mutated in place. -/
def assignFirstAvailable (rs : List Runway) (flight : Flight)
    (start_time end_time : Int) : Option (List Runway) :=
  match rs with
  | [] => none
  | r :: rest =>
    if r.status = RunwayStatus.AVAILABLE then
      some ((r.assign_flight flight start_time end_time).1 :: rest)
    else
      (assignFirstAvailable rest flight start_time end_time).map (r :: ·)

/-- `Airport.process_next_flight`: pop the highest-priority request; if
no runway is available the popped request is dropped and `False`
returned; otherwise the first available runway is reserved. -/
def Airport.process_next_flight (a : Airport) : Airport × Bool :=
  match a.flight_scheduler.get_next_flight with
  | (none, _) => (a, false)
  | (some next_entry, sched2) =>
    let a2 := { a with flight_scheduler := sched2 }
    match assignFirstAvailable a2.runways next_entry.flight
        next_entry.slot_info.start_time next_entry.slot_info.end_time with
    | none => (a2, false)
    | some rs2 => ({ a2 with runways := rs2 }, true)

end Agent

/-! ## Part 3: the simulator app

Embeds `ATC-Simulator-App/app/simulation.py` (with the data models of
`app/models.py`).  Wall-clock reads (`datetime.now()`) are supplied by
the caller as a rational `now`; random draws are supplied resolved in a
`SpawnChoice` record; trigonometry is supplied by a `Trig` oracle. -/

namespace SimApp

/-- `app/models.py` `FlightStatus`. -/
inductive FlightStatus
  | APPROACHING
  | ON_FINAL
  | LANDING
  | LANDED
  | TAXIING_TO_GATE
  | AT_GATE
  | TAXIING_TO_RUNWAY
  | READY_FOR_TAKEOFF
  | TAKING_OFF
  | DEPARTING
  | DEPARTED
deriving DecidableEq, Inhabited, Repr

/-- `app/models.py` `FlightType`. -/
inductive FlightType
  | ARRIVAL
  | DEPARTURE
deriving DecidableEq, Inhabited, Repr

/-- `app/models.py` `Position` (x, y in nautical miles from the airport). -/
structure Position where
  x : ℚ
  y : ℚ
deriving DecidableEq, Inhabited, Repr

/-- `app/models.py` `Waypoint` (the never-read `description` string is
omitted). -/
structure Waypoint where
  name : String
  position : Position
  altitude_restriction : ℚ
deriving DecidableEq, Inhabited, Repr

/-- One row of the `AIRCRAFT_TYPES` table. -/
structure AircraftChars where
  cruise_speed : ℚ
  approach_speed : ℚ
  min_approach_speed : ℚ
  max_approach_speed : ℚ
  climb_rate : ℚ
  descent_rate : ℚ
deriving DecidableEq, Inhabited, Repr

/-- `AIRCRAFT_TYPES` (simulation.py module level), in insertion order. -/
def AIRCRAFT_TYPES : List (String × AircraftChars) :=
  [("B738", ⟨450, 140, 130, 160, 2500, 1500⟩),
   ("A320", ⟨450, 137, 125, 155, 2400, 1400⟩),
   ("B77W", ⟨490, 150, 140, 170, 2000, 1200⟩),
   ("A359", ⟨480, 145, 135, 165, 2200, 1300⟩),
   ("E190", ⟨430, 130, 120, 150, 2800, 1600⟩),
   ("C172", ⟨120, 65, 55, 80, 700, 500⟩)]

/-- `AIRCRAFT_TYPES.get(aircraft_type, AIRCRAFT_TYPES["B738"])`. -/
def aircraftTypesGet (aircraft_type : String) : AircraftChars :=
  (AIRCRAFT_TYPES.lookup aircraft_type).getD ⟨450, 140, 130, 160, 2500, 1500⟩

/-- `AIRPORT["elevation"]` (ft). -/
def airportElevation : ℚ := 32

/-- `AIRPORT["runway_heading"]` (deg). -/
def airportRunwayHeading : ℚ := 340

/-- The `WAYPOINTS` registry (dict name → waypoint), in insertion order. -/
def WAYPOINTS : List (String × Waypoint) :=
  [("NORTH", ⟨"NORTH", ⟨0, 25⟩, 6000⟩),
   ("SOUTH", ⟨"SOUTH", ⟨0, -25⟩, 6000⟩),
   ("EAST", ⟨"EAST", ⟨25, 0⟩, 6000⟩),
   ("SHORT_EAST", ⟨"SHORT_EAST", ⟨15, 0⟩, 4000⟩),
   ("WEST", ⟨"WEST", ⟨-25, 0⟩, 6000⟩),
   ("DOWNWIND", ⟨"DOWNWIND", ⟨-9, 6⟩, 2000⟩),
   ("BASE", ⟨"BASE", ⟨-9, -12⟩, 1500⟩),
   ("FINAL", ⟨"FINAL", ⟨0, -15⟩, 1000⟩),
   ("RUNWAY", ⟨"RUNWAY", ⟨0, 0⟩, 32⟩),
   ("ALPHA", ⟨"ALPHA", ⟨-15, 15⟩, 5000⟩),
   ("BRAVO", ⟨"BRAVO", ⟨15, 15⟩, 5000⟩),
   ("CHARLIE", ⟨"CHARLIE", ⟨-15, -15⟩, 4000⟩),
   ("DELTA", ⟨"DELTA", ⟨15, -15⟩, 4000⟩),
   ("ECHO", ⟨"ECHO", ⟨0, -22⟩, 2500⟩),
   ("HOTEL", ⟨"HOTEL", ⟨-18, 0⟩, 3500⟩)]

/-- The `LANDING_RULES` record shape (`app/models.py` `LandingRules`). -/
structure LandingRulesT where
  max_altitude : ℚ
  min_speed : ℚ
  max_speed : ℚ
  max_distance : ℚ
  required_waypoint : String
deriving DecidableEq, Inhabited, Repr

/-- `LANDING_RULES` (simulation.py module level). -/
def LANDING_RULES : LandingRulesT := ⟨1500, 100, 180, 18, "FINAL"⟩

/-- `NEAR_MISS_DISTANCE_NM = 0.5`. -/
def NEAR_MISS_DISTANCE_NM : ℚ := 1 / 2

/-- `NEAR_MISS_ALTITUDE = 1000`. -/
def NEAR_MISS_ALTITUDE : ℚ := 1000

/-- `COLLISION_DISTANCE_NM = 0.15`. -/
def COLLISION_DISTANCE_NM : ℚ := 3 / 20

/-- `COLLISION_ALTITUDE = 500`. -/
def COLLISION_ALTITUDE : ℚ := 500

/-- Trigonometric oracle.  `sinDeg θ` stands for `sin(radians(θ))` and
`cosDeg θ` for `cos(radians(θ))` (kinematics integrator); `sinRad` and
`cosRad` for `sin`/`cos` on radian arguments (spawn offsets);
`atan2Deg dx dy` for `degrees(atan2(dx, dy))` (bearings).  Every theorem
quantifies over the oracle, hence holds in particular for the real
trigonometric functions. -/
structure Trig where
  sinDeg : ℚ → ℚ
  cosDeg : ℚ → ℚ
  sinRad : ℚ → ℚ
  cosRad : ℚ → ℚ
  atan2Deg : ℚ → ℚ → ℚ

/-- Python float `%` with positive modulus:
`a % m = a - m * floor(a / m)`, always in `[0, m)` for `m > 0`. -/
def pymod (a m : ℚ) : ℚ := a - m * ⌊a / m⌋

/-- Squared planar distance between two positions.  The source compares
`sqrt(dx^2+dy^2)` with a non-negative constant `c`; this embedding
compares `sqDist` with `c^2`, which is equivalent over the reals. -/
def sqDist (p q : Position) : ℚ := (p.x - q.x) ^ 2 + (p.y - q.y) ^ 2

/-- The reason string stored by `_check_landing_rules`; each constructor
identifies one failing rule and carries the offending measurement (the
exact float formatting of the source message is not representable). -/
inductive LandingDenial
  | altitudeExceedsMax (altitude : ℚ)
  | speedBelowMin (speed : ℚ)
  | speedExceedsMax (speed : ℚ)
  | distanceExceedsMax (sq_distance : ℚ)
  | mustPassWaypoint (waypoint : String)
deriving DecidableEq, Repr

/-- Messages appearing in command results:
`"Command accepted"`, `f"Unknown waypoint: {w}"`,
`f"Cannot clear to land: {reason}"`, `f"Flight {callsign} not found"`,
`"Simulation has failed"`. -/
inductive CmdMsg
  | commandAccepted
  | unknownWaypoint (w : String)
  | cannotClearToLand (reason : Option LandingDenial)
  | flightNotFound (callsign : String)
  | simulationHasFailed
deriving DecidableEq, Repr

/-- The `{"success": ..., "message": ...}` dict returned by commands. -/
structure CmdResult where
  success : Bool
  message : CmdMsg
deriving DecidableEq, Repr

/-- `app/models.py` `FlightCommand`: a partial command. -/
structure FlightCommand where
  altitude : Option ℚ := none
  speed : Option ℚ := none
  heading : Option ℚ := none
  waypoint : Option String := none
  clear_to_land : Option Bool := none
  clear_for_takeoff : Option Bool := none
deriving DecidableEq, Repr

/-- `simulation.py` `Flight`.  `counted`/`counted_time` model the
dynamically added `_counted` and `_landed_time`/`_departed_time`
attributes used by `cleanup_flights`; `origin`, `destination` and
`created_at` are never read by the embedded logic and are omitted. -/
structure Flight where
  callsign : String
  flight_type : FlightType
  aircraft_type : String
  position : Position
  altitude : ℚ
  speed : ℚ
  heading : ℚ
  target_altitude : ℚ
  target_speed : ℚ
  target_heading : ℚ
  target_waypoint : Option String := none
  status : FlightStatus
  cleared_to_land : Bool := false
  cleared_for_takeoff : Bool := false
  passed_waypoints : List String := []
  current_waypoint : Option String := none
  characteristics : AircraftChars
  gate_time : ℚ := 0
  completed_at : Option ℚ := none
  clearance_denial_reason : Option LandingDenial := none
  counted : Bool := false
  counted_time : Option ℚ := none
deriving DecidableEq, Repr

/-- `Flight.__init__`. -/
def mkFlight (callsign : String) (flight_type : FlightType)
    (aircraft_type : String) (position : Position)
    (altitude speed heading : ℚ) : Flight :=
  { callsign := callsign
    flight_type := flight_type
    aircraft_type := aircraft_type
    position := position
    altitude := altitude
    speed := speed
    heading := heading
    target_altitude := altitude
    target_speed := speed
    target_heading := heading
    status := if flight_type = FlightType.ARRIVAL then FlightStatus.APPROACHING
      else FlightStatus.AT_GATE
    characteristics := aircraftTypesGet aircraft_type }

/-- `Flight.is_on_ground`. -/
def Flight.is_on_ground (f : Flight) : Bool :=
  match f.status with
  | FlightStatus.LANDED | FlightStatus.AT_GATE | FlightStatus.READY_FOR_TAKEOFF
  | FlightStatus.TAXIING_TO_GATE | FlightStatus.TAXIING_TO_RUNWAY => true
  | _ => false

/-- `Flight.is_airborne_active`. -/
def Flight.is_airborne_active (f : Flight) : Bool :=
  match f.status with
  | FlightStatus.APPROACHING | FlightStatus.ON_FINAL | FlightStatus.LANDING
  | FlightStatus.TAKING_OFF | FlightStatus.DEPARTING => true
  | _ => false

/-- `distance = math.sqrt(x**2 + y**2)`, squared. -/
def Flight.distSqToAirport (f : Flight) : ℚ :=
  f.position.x ^ 2 + f.position.y ^ 2

/-- `Flight._check_landing_rules` (first failing rule wins). -/
def Flight.check_landing_rules (f : Flight) : Bool × Option LandingDenial :=
  if f.altitude > LANDING_RULES.max_altitude then
    (false, some (LandingDenial.altitudeExceedsMax f.altitude))
  else if f.speed < LANDING_RULES.min_speed then
    (false, some (LandingDenial.speedBelowMin f.speed))
  else if f.speed > LANDING_RULES.max_speed then
    (false, some (LandingDenial.speedExceedsMax f.speed))
  else if f.distSqToAirport > LANDING_RULES.max_distance ^ 2 then
    (false, some (LandingDenial.distanceExceedsMax f.distSqToAirport))
  else if LANDING_RULES.required_waypoint ∉ f.passed_waypoints then
    (false, some (LandingDenial.mustPassWaypoint LANDING_RULES.required_waypoint))
  else (true, none)

/-- `if command.altitude is not None: self.target_altitude = command.altitude`. -/
def applyAltitudeCmd (f : Flight) (command : FlightCommand) : Flight :=
  match command.altitude with
  | some a => { f with target_altitude := a }
  | none => f

/-- `if command.speed is not None: self.target_speed = command.speed`. -/
def applySpeedCmd (f : Flight) (command : FlightCommand) : Flight :=
  match command.speed with
  | some sp => { f with target_speed := sp }
  | none => f

/-- `if command.heading is not None`: normalise mod 360 and clear the
waypoint target. -/
def applyHeadingCmd (f : Flight) (command : FlightCommand) : Flight :=
  match command.heading with
  | some h => { f with target_heading := pymod h 360, target_waypoint := none }
  | none => f

/-- `if command.waypoint is not None`: set the target when registered,
otherwise fail this field only. -/
def applyWaypointCmd (f : Flight) (command : FlightCommand)
    (result : CmdResult) : Flight × CmdResult :=
  match command.waypoint with
  | some w =>
    if (WAYPOINTS.lookup w).isSome then
      ({ f with target_waypoint := some w, current_waypoint := some w }, result)
    else (f, ⟨false, CmdMsg.unknownWaypoint w⟩)
  | none => (f, result)

/-- `if command.clear_for_takeoff is not None`: set the flag verbatim. -/
def applyTakeoffCmd (f : Flight) (command : FlightCommand) : Flight :=
  match command.clear_for_takeoff with
  | some b => { f with cleared_for_takeoff := b }
  | none => f

/-- `if command.clear_to_land is not None`: on `True` run the landing
rule check and either grant (routing to the runway) or store the denial
reason; on `False` revoke the clearance. -/
def applyClearToLandCmd (f : Flight) (command : FlightCommand)
    (result : CmdResult) : Flight × CmdResult :=
  match command.clear_to_land with
  | some b =>
    if b then
      match f.check_landing_rules with
      | (true, _) =>
        ({ f with
            cleared_to_land := true,
            clearance_denial_reason := none,
            target_waypoint := some "RUNWAY",
            current_waypoint := some "RUNWAY",
            target_altitude := airportElevation,
            target_speed := f.characteristics.approach_speed }, result)
      | (false, reason) =>
        ({ f with clearance_denial_reason := reason },
          ⟨false, CmdMsg.cannotClearToLand reason⟩)
    else
      ({ f with cleared_to_land := false, clearance_denial_reason := none },
        result)
  | none => (f, result)

/-- `Flight.apply_command`: the six optional fields are applied in
source order; only the `waypoint` and `clear_to_land` branches can
overwrite the result. -/
def Flight.apply_command (f : Flight) (command : FlightCommand) :
    Flight × CmdResult :=
  let fr := applyWaypointCmd
    (applyHeadingCmd (applySpeedCmd (applyAltitudeCmd f command) command)
      command)
    command ⟨true, CmdMsg.commandAccepted⟩
  applyClearToLandCmd (applyTakeoffCmd fr.1 command) command fr.2

/-- `Flight._navigate_to_waypoint`. -/
def Flight.navigate_to_waypoint (f : Flight) (trig : Trig) : Flight :=
  match f.target_waypoint with
  | none => f
  | some w =>
    match WAYPOINTS.lookup w with
    | none => f
    | some waypoint =>
      let dx := waypoint.position.x - f.position.x
      let dy := waypoint.position.y - f.position.y
      { f with target_heading := pymod (trig.atan2Deg dx dy) 360 }

/-- One iteration of the `_check_waypoint_passage` loop body. -/
def checkWaypointStep (f : Flight) (nw : String × Waypoint) : Flight :=
  if nw.1 ∈ f.passed_waypoints then f
  else if sqDist f.position nw.2.position < (1 / 2) ^ 2 then
    let f2 := { f with passed_waypoints := f.passed_waypoints ++ [nw.1] }
    if f2.target_waypoint = some nw.1 then
      { f2 with target_waypoint := none, target_heading := f2.heading }
    else f2
  else f

/-- `Flight._check_waypoint_passage`: iterate over the registry in
insertion order. -/
def Flight.check_waypoint_passage (f : Flight) : Flight :=
  WAYPOINTS.foldl checkWaypointStep f

/-- `Flight._update_status`. -/
def Flight.update_status (f : Flight) (now : ℚ) : Flight :=
  if f.flight_type = FlightType.ARRIVAL then
    if f.status = FlightStatus.APPROACHING then
      if "FINAL" ∈ f.passed_waypoints ∧ f.altitude < 2000 then
        { f with status := FlightStatus.ON_FINAL }
      else f
    else if f.status = FlightStatus.ON_FINAL then
      if f.cleared_to_land ∧ f.distSqToAirport < (1 / 2) ^ 2 ∧
          f.altitude < 300 then
        { f with status := FlightStatus.LANDING }
      else f
    else if f.status = FlightStatus.LANDING then
      if f.distSqToAirport < (1 / 10) ^ 2 ∨
          f.altitude ≤ airportElevation + 20 then
        { f with
            altitude := airportElevation, speed := 0,
            status := FlightStatus.LANDED, completed_at := some now }
      else f
    else f
  else
    if f.status = FlightStatus.READY_FOR_TAKEOFF then
      if f.cleared_for_takeoff then
        { f with
            status := FlightStatus.TAKING_OFF,
            target_speed := 180,
            target_altitude := 6000,
            target_heading := airportRunwayHeading,
            target_waypoint := some "NORTH",
            current_waypoint := some "NORTH" }
      else f
    else if f.status = FlightStatus.TAKING_OFF then
      if f.speed > 140 then { f with status := FlightStatus.DEPARTING } else f
    else if f.status = FlightStatus.DEPARTING then
      if "NORTH" ∈ f.passed_waypoints ∧ f.altitude ≥ 5900 then
        { f with status := FlightStatus.DEPARTED, completed_at := some now }
      else f
    else f

/-- `if self.target_waypoint: self._navigate_to_waypoint()`. -/
def navStage (f : Flight) (trig : Trig) : Flight :=
  if f.target_waypoint.isSome then f.navigate_to_waypoint trig else f

/-- The altitude integration step of `Flight.update` (no clamp at the
target; only `max(0, ...)`). -/
def integrateAltitude (f : Flight) (dt : ℚ) : Flight :=
  if |f.altitude - f.target_altitude| > 10 then
    let f2 :=
      if f.altitude < f.target_altitude then
        { f with altitude :=
            f.altitude + f.characteristics.climb_rate * (dt / 60) }
      else
        { f with altitude :=
            f.altitude - f.characteristics.descent_rate * (dt / 60) }
    { f2 with altitude := max 0 f2.altitude }
  else f

/-- The speed integration step of `Flight.update`
(`speed_change_rate = 5`, clamped at the target by `min`/`max`). -/
def integrateSpeed (f : Flight) (dt : ℚ) : Flight :=
  if |f.speed - f.target_speed| > 1 then
    if f.speed < f.target_speed then
      { f with speed := min (f.speed + 5 * dt) f.target_speed }
    else
      { f with speed := max (f.speed - 5 * dt) f.target_speed }
  else f

/-- The heading integration step of `Flight.update` (`turn_rate = 3`;
the signed difference lies in `[-180, 180)`, the turn is clamped and
the result normalised mod 360). -/
def integrateHeading (f : Flight) (dt : ℚ) : Flight :=
  let heading_diff := pymod (f.target_heading - f.heading + 540) 360 - 180
  if |heading_diff| > 1 / 2 then
    let turn_amount := min |heading_diff| (3 * dt)
    let f2 := { f with heading := f.heading +
      (if heading_diff > 0 then turn_amount else -turn_amount) }
    { f2 with heading := pymod f2.heading 360 }
  else f

/-- The position integration step of `Flight.update`:
`distance = (speed/3600)*dt`, `dx = sin(radians(heading))`,
`dy = cos(radians(heading))`. -/
def integratePosition (f : Flight) (dt : ℚ) (trig : Trig) : Flight :=
  { f with position :=
    ⟨f.position.x + (f.speed / 3600) * dt * trig.sinDeg f.heading,
     f.position.y + (f.speed / 3600) * dt * trig.cosDeg f.heading⟩ }

/-- `Flight.update(dt)`: per-tick kinematics and lifecycle, staged in
source order. -/
def Flight.update (f : Flight) (dt : ℚ) (now : ℚ) (trig : Trig) : Flight :=
  if f.status = FlightStatus.LANDED ∨ f.status = FlightStatus.DEPARTED ∨
      f.status = FlightStatus.AT_GATE then
    if f.status = FlightStatus.AT_GATE ∧
        f.flight_type = FlightType.DEPARTURE then
      let f2 := { f with gate_time := f.gate_time + dt }
      if f2.gate_time > 60 then
        { f2 with status := FlightStatus.READY_FOR_TAKEOFF }
      else f2
    else f
  else
    ((integratePosition
        (integrateHeading
          (integrateSpeed (integrateAltitude (navStage f trig) dt) dt) dt)
        dt trig).check_waypoint_passage).update_status now

/-- `self.failure_reason = f"COLLISION: {f1.callsign} and {f2.callsign}"`. -/
inductive FailureReason
  | collision (callsign1 callsign2 : String)
deriving DecidableEq, Repr

/-- `simulation.py` `ATCSimulator`.  The flight dict is an
insertion-ordered association list; history records are kept as the
flights they were derived from (`to_history_data`). -/
structure ATCSimulator where
  flights : List (String × Flight) := []
  flight_counter : Nat := 0
  running : Bool := false
  failed : Bool := false
  failure_reason : Option FailureReason := none
  speed_multiplier : ℚ := 1
  landed_count : Nat := 0
  departed_count : Nat := 0
  near_miss_count : Nat := 0
  collision_pair : Option (String × String) := none
  landed_flights : List Flight := []
  departed_flights : List Flight := []
  active_near_misses : List (String × String) := []
  session_start : ℚ := 0
deriving DecidableEq, Repr

/-- `ATCSimulator.reset`. -/
def ATCSimulator.reset (s : ATCSimulator) (now : ℚ) : ATCSimulator :=
  { s with
    flights := [], flight_counter := 0, failed := false,
    failure_reason := none, landed_count := 0, departed_count := 0,
    near_miss_count := 0, collision_pair := none, landed_flights := [],
    departed_flights := [], active_near_misses := [],
    session_start := now, running := true }

/-- `ATCSimulator.set_speed`: clamp the multiplier into `[0.5, 10.0]`. -/
def ATCSimulator.set_speed (s : ATCSimulator) (multiplier : ℚ) : ATCSimulator :=
  { s with speed_multiplier := max (1 / 2) (min 10 multiplier) }

/-- Kernel-computable lexicographic comparison on code points; agrees
with Python string `<`. -/
def charListLt : List Char → List Char → Bool
  | [], [] => false
  | [], _ :: _ => true
  | _ :: _, [] => false
  | a :: as, b :: bs =>
    if a < b then true else if b < a then false else charListLt as bs

def strLt (a b : String) : Bool := charListLt a.data b.data

/-- `pair = tuple(sorted([f1.callsign, f2.callsign]))`. -/
def pairKey (a b : String) : String × String :=
  if strLt b a then (b, a) else (a, b)

/-- `horizontal_dist < COLLISION_DISTANCE_NM and vertical_dist <
COLLISION_ALTITUDE` (horizontal comparison squared). -/
def collisionCond (f1 f2 : Flight) : Prop :=
  sqDist f1.position f2.position < COLLISION_DISTANCE_NM ^ 2 ∧
  |f1.altitude - f2.altitude| < COLLISION_ALTITUDE

instance (f1 f2 : Flight) : Decidable (collisionCond f1 f2) := by
  unfold collisionCond
  infer_instance

/-- `horizontal_dist < NEAR_MISS_DISTANCE_NM and vertical_dist <
NEAR_MISS_ALTITUDE` (horizontal comparison squared). -/
def nearMissCond (f1 f2 : Flight) : Prop :=
  sqDist f1.position f2.position < NEAR_MISS_DISTANCE_NM ^ 2 ∧
  |f1.altitude - f2.altitude| < NEAR_MISS_ALTITUDE

instance (f1 f2 : Flight) : Decidable (nearMissCond f1 f2) := by
  unfold nearMissCond
  infer_instance

/-- Outcome of the pair scan in `check_separations`: either the first
colliding pair (with the near-miss increments made before it), or the
final increment count and the new "currently conflicting" set. -/
inductive SepOutcome
  | collided (f1 f2 : Flight) (count : Nat)
  | normal (count : Nat) (cur : List (String × String))
deriving Repr

/-- The unordered-pair enumeration
`for i, f1 in enumerate(airborne): for f2 in airborne[i+1:]`. -/
def allPairs {α : Type} : List α → List (α × α)
  | [] => []
  | x :: xs => xs.map (fun y => (x, y)) ++ allPairs xs

/-- The pair loop of `check_separations`: collision aborts the scan
(the Python `return`), a near-miss pair is added to the current set and
counted only when absent from the previous set. -/
def sepLoop (prev : List (String × String)) :
    List (Flight × Flight) → Nat → List (String × String) → SepOutcome
  | [], count, cur => SepOutcome.normal count cur
  | (f1, f2) :: rest, count, cur =>
    if collisionCond f1 f2 then SepOutcome.collided f1 f2 count
    else if nearMissCond f1 f2 then
      sepLoop prev rest
        (if pairKey f1.callsign f2.callsign ∈ prev then count else count + 1)
        (if pairKey f1.callsign f2.callsign ∈ cur then cur
         else cur ++ [pairKey f1.callsign f2.callsign])
    else sepLoop prev rest count cur

/-- The airborne-active flight list scanned by `check_separations`. -/
def ATCSimulator.airborne (s : ATCSimulator) : List Flight :=
  (s.flights.map Prod.snd).filter Flight.is_airborne_active

/-- `ATCSimulator.check_separations`.  On a collision the scan returns
before `active_near_misses` is reassigned (the increments already made
persist); `save_score` only writes a file and is omitted. -/
def ATCSimulator.check_separations (s : ATCSimulator) : ATCSimulator :=
  if s.failed then s
  else
    match sepLoop s.active_near_misses (allPairs s.airborne) 0 [] with
    | SepOutcome.collided f1 f2 count =>
      { s with
          failed := true,
          failure_reason :=
            some (FailureReason.collision f1.callsign f2.callsign),
          collision_pair := some (pairKey f1.callsign f2.callsign),
          near_miss_count := s.near_miss_count + count }
    | SepOutcome.normal count cur =>
      { s with
          near_miss_count := s.near_miss_count + count,
          active_near_misses := cur }

/-- The `cleanup_flights` iteration: surviving flights, new landed and
departed counts, and appended history records, in iteration order. -/
def cleanupLoop (now : ℚ) : List (String × Flight) →
    List (String × Flight) × Nat × Nat × List Flight × List Flight
  | [] => ([], 0, 0, [], [])
  | (cs, f) :: rest =>
    let r := cleanupLoop now rest
    if f.status = FlightStatus.LANDED then
      if f.counted = false then
        ((cs, { f with counted := true, counted_time := some now }) :: r.1,
          r.2.1 + 1, r.2.2.1, f :: r.2.2.2.1, r.2.2.2.2)
      else if now - f.counted_time.getD 0 > 3 then
        (r.1, r.2.1, r.2.2.1, r.2.2.2.1, r.2.2.2.2)
      else ((cs, f) :: r.1, r.2.1, r.2.2.1, r.2.2.2.1, r.2.2.2.2)
    else if f.status = FlightStatus.DEPARTED then
      if f.counted = false then
        ((cs, { f with counted := true, counted_time := some now }) :: r.1,
          r.2.1, r.2.2.1 + 1, r.2.2.2.1, f :: r.2.2.2.2)
      else if now - f.counted_time.getD 0 > 3 then
        (r.1, r.2.1, r.2.2.1, r.2.2.2.1, r.2.2.2.2)
      else ((cs, f) :: r.1, r.2.1, r.2.2.1, r.2.2.2.1, r.2.2.2.2)
    else ((cs, f) :: r.1, r.2.1, r.2.2.1, r.2.2.2.1, r.2.2.2.2)

/-- `ATCSimulator.cleanup_flights`. -/
def ATCSimulator.cleanup_flights (s : ATCSimulator) (now : ℚ) : ATCSimulator :=
  let r := cleanupLoop now s.flights
  { s with
      flights := r.1,
      landed_count := s.landed_count + r.2.1,
      departed_count := s.departed_count + r.2.2.1,
      landed_flights := s.landed_flights ++ r.2.2.2.1,
      departed_flights := s.departed_flights ++ r.2.2.2.2 }

/-- `ATCSimulator.update(dt)`: inert when `failed`; otherwise scale
`dt`, update every flight, check separations, clean up. -/
def ATCSimulator.update (s : ATCSimulator) (dt now : ℚ) (trig : Trig) :
    ATCSimulator :=
  if s.failed then s
  else
    let dt2 := dt * s.speed_multiplier
    let s2 := { s with
      flights := s.flights.map
        (fun (cf : String × Flight) => (cf.1, cf.2.update dt2 now trig)) }
    (s2.check_separations).cleanup_flights now

/-- `ATCSimulator.command_flight`. -/
def ATCSimulator.command_flight (s : ATCSimulator) (callsign : String)
    (command : FlightCommand) : ATCSimulator × CmdResult :=
  if s.failed then (s, ⟨false, CmdMsg.simulationHasFailed⟩)
  else
    match s.flights.lookup callsign with
    | some flight =>
      let fr := flight.apply_command command
      ({ s with
          flights := s.flights.map
            (fun (cf : String × Flight) =>
              if cf.1 = callsign then (cf.1, fr.1) else cf) }, fr.2)
    | none => (s, ⟨false, CmdMsg.flightNotFound callsign⟩)

/-- The random draws of a spawn, resolved: entry waypoint index, polar
offset, aircraft type index, spawn altitude, and the callsign finally
returned by the `generate_callsign` retry loop (which only terminates
with a callsign not yet in `self.flights`). -/
structure SpawnChoice where
  entry_index : Fin 4
  offset_angle : ℚ
  offset_dist : ℚ
  type_index : Fin 6
  altitude : ℚ
  callsign : String

/-- `entry_waypoints = ["NORTH", "SOUTH", "EAST", "WEST"]`. -/
def entryWaypoints : List String := ["NORTH", "SOUTH", "EAST", "WEST"]

/-- `list(AIRCRAFT_TYPES.keys())`. -/
def aircraftTypeKeys : List String := AIRCRAFT_TYPES.map Prod.fst

/-- `ATCSimulator.spawn_arrival` (returns `None` and leaves the state
untouched when `failed`). -/
def ATCSimulator.spawn_arrival (s : ATCSimulator) (r : SpawnChoice)
    (trig : Trig) : ATCSimulator × Option Flight :=
  if s.failed then (s, none)
  else
    let entry := entryWaypoints.getD r.entry_index.val "NORTH"
    -- the four entry names are always registered
    let waypoint := (WAYPOINTS.lookup entry).getD ⟨"NORTH", ⟨0, 25⟩, 6000⟩
    let spawn_x := waypoint.position.x + r.offset_dist * trig.cosRad r.offset_angle
    let spawn_y := waypoint.position.y + r.offset_dist * trig.sinRad r.offset_angle
    let heading := pymod (trig.atan2Deg (waypoint.position.x - spawn_x)
      (waypoint.position.y - spawn_y)) 360
    let aircraft_type := aircraftTypeKeys.getD r.type_index.val "B738"
    let flight0 := mkFlight r.callsign FlightType.ARRIVAL aircraft_type
      ⟨spawn_x, spawn_y⟩ r.altitude
      ((aircraftTypesGet aircraft_type).cruise_speed * (7 / 10)) heading
    let flight := { flight0 with
      target_waypoint := some entry,
      current_waypoint := some entry,
      target_altitude := waypoint.altitude_restriction,
      target_speed := 250 }
    ({ s with flights := s.flights ++ [(r.callsign, flight)] }, some flight)

/-- `ATCSimulator.spawn_departure` (returns `None` and leaves the state
untouched when `failed`). -/
def ATCSimulator.spawn_departure (s : ATCSimulator) (r : SpawnChoice) :
    ATCSimulator × Option Flight :=
  if s.failed then (s, none)
  else
    let aircraft_type := aircraftTypeKeys.getD r.type_index.val "B738"
    let flight := mkFlight r.callsign FlightType.DEPARTURE aircraft_type
      ⟨1 / 10, -(1 / 5)⟩ airportElevation 0 airportRunwayHeading
    ({ s with flights := s.flights ++ [(r.callsign, flight)] }, some flight)

end SimApp

/-! ## Concrete instances used by the claim witnesses -/

namespace Agent

/-- The sample flights of `agent/airport/airport.py` (module test). -/
def flightF1 : Flight := ⟨"F001", "AA101", "LAX", "JFK", none, none⟩

def flightF2 : Flight := ⟨"F002", "UA202", "ORD", "JFK", none, none⟩

def flightF3 : Flight := ⟨"F003", "DL303", "JFK", "MIA", none, none⟩

def flightF4 : Flight := ⟨"F004", "BA999", "LHR", "JFK", none, none⟩

/-- The spec's scheduler example: landing@1000, takeoff@1100,
landing@1050, then a mayday. -/
def exampleOps : List SchedulerOp :=
  [SchedulerOp.landing flightF1 1000 ⟨1000, 1300⟩,
   SchedulerOp.takeoff flightF3 1100 ⟨1100, 1300⟩,
   SchedulerOp.landing flightF2 1050 ⟨1050, 1350⟩,
   SchedulerOp.mayday flightF4 ⟨2000, 2400⟩]

/-- Four equal-priority landings, all at time 1000. -/
def tieOps : List SchedulerOp :=
  [SchedulerOp.landing flightF1 1000 ⟨1000, 1300⟩,
   SchedulerOp.landing flightF2 1000 ⟨1000, 1300⟩,
   SchedulerOp.landing flightF3 1000 ⟨1000, 1300⟩,
   SchedulerOp.landing flightF4 1000 ⟨1000, 1300⟩]

/-- The entry pushed by a landing at time 1000 with slot 1000-1300. -/
def tieEntry (fl : Flight) : ScheduleEntry :=
  ⟨1000, fl, ⟨1000, 1300⟩, FlightStatus.LANDING⟩

/-- A landing or takeoff is scheduled at a non-negative (Unix) time; a
mayday carries no time. -/
def SchedulerOp.timeNonneg : SchedulerOp → Prop
  | SchedulerOp.landing _ t _ => 0 ≤ t
  | SchedulerOp.takeoff _ t _ => 0 ≤ t
  | SchedulerOp.mayday _ _ => True

instance (op : SchedulerOp) : Decidable op.timeNonneg :=
  match op with
  | SchedulerOp.landing _ t _ => inferInstanceAs (Decidable (0 ≤ t))
  | SchedulerOp.takeoff _ t _ => inferInstanceAs (Decidable (0 ≤ t))
  | SchedulerOp.mayday _ _ => inferInstanceAs (Decidable True)

/-- The runway of the module test in `agent/airport/airport.py`. -/
def runwayR1 : Runway := ⟨"R1", "3R", "030", RunwayStatus.AVAILABLE, none, none, none⟩

/-- A one-runway airport with a single pending landing request. -/
def exampleAirport : Airport :=
  ⟨"JFK", "John F. Kennedy International Airport", [runwayR1],
    ⟨[tieEntry flightF1]⟩⟩

end Agent

namespace SimApp

/-- A concrete trigonometric oracle for closed instances (any oracle
serves, since every theorem quantifies over it). -/
def trivialTrig : Trig :=
  ⟨fun _ => 0, fun _ => 1, fun _ => 0, fun _ => 1, fun _ _ => 0⟩

/-- The pure landing-clearance command. -/
def ctlCommand : FlightCommand := { clear_to_land := some true }

/-- The landing rule set as the spec words it: altitude at most 1500 ft,
speed within [100, 180] kt, distance-to-field at most 18 nm (squared
comparison) and the waypoint FINAL already passed. -/
def LandingRulesHold (f : Flight) : Prop :=
  f.altitude ≤ 1500 ∧ 100 ≤ f.speed ∧ f.speed ≤ 180 ∧
  f.position.x ^ 2 + f.position.y ^ 2 ≤ 18 ^ 2 ∧
  "FINAL" ∈ f.passed_waypoints

instance (f : Flight) : Decidable (LandingRulesHold f) := by
  unfold LandingRulesHold
  infer_instance

/-- An arrival meeting every landing rule. -/
def c1flight : Flight :=
  { mkFlight "SWA400" FlightType.ARRIVAL "A320" ⟨3, 4⟩ 1400 150 90 with
      passed_waypoints := ["DOWNWIND", "BASE", "FINAL"] }

/-- Two airborne arrivals at the same position, 200 ft apart. -/
def c2flightA : Flight := mkFlight "UAL100" FlightType.ARRIVAL "B738" ⟨0, 0⟩ 1000 200 0

def c2flightB : Flight := mkFlight "DAL200" FlightType.ARRIVAL "B738" ⟨0, 0⟩ 1200 200 0

def c2sim : ATCSimulator :=
  { flights := [("UAL100", c2flightA), ("DAL200", c2flightB)] }

/-- An approaching arrival 15 ft below its target altitude. -/
def c4flight : Flight :=
  { mkFlight "UAL300" FlightType.ARRIVAL "B738" ⟨10, 10⟩ 1000 0 0 with
      target_altitude := 1015 }

/-- Two airborne arrivals 0.3 nm apart at equal altitude: a near miss
but not a collision. -/
def c5flightA : Flight := mkFlight "ASA600" FlightType.ARRIVAL "B738" ⟨0, 0⟩ 1000 200 0

def c5flightB : Flight :=
  mkFlight "FFT700" FlightType.ARRIVAL "B738" ⟨3 / 10, 0⟩ 1000 200 0

def c5sim : ATCSimulator :=
  { flights := [("ASA600", c5flightA), ("FFT700", c5flightB)] }

/-- An arrival far above the clearance ceiling. -/
def c9flight : Flight := mkFlight "JBU500" FlightType.ARRIVAL "B738" ⟨0, 0⟩ 5000 250 0

/-- An unknown waypoint together with a landing-clearance request. -/
def c9cmd : FlightCommand := { waypoint := some "XYZAB", clear_to_land := some true }

/-- A simulator whose failure flag is set. -/
def failedSim : ATCSimulator := { failed := true }

/-- A resolved spawn randomness record. -/
def spawnChoice0 : SpawnChoice := ⟨0, 0, 3, 0, 9000, "UAL999"⟩

/-- An airborne arrival heading 350°. -/
def c7flight : Flight := mkFlight "SKW800" FlightType.ARRIVAL "B738" ⟨5, 5⟩ 3000 250 350

/-- An arrival exactly on the FINAL fix, targeting it. -/
def c8flight : Flight :=
  { mkFlight "AAL900" FlightType.ARRIVAL "B738" ⟨0, -15⟩ 1200 140 0 with
      target_waypoint := some "FINAL" }

end SimApp

namespace SimApp

/-- The per-tick passage condition of one registry entry: not yet in
`passed_waypoints` and within 0.5 nm of the flight's position (squared
comparison). -/
def wpHit (f : Flight) (nw : String × Waypoint) : Prop :=
  nw.1 ∉ f.passed_waypoints ∧ sqDist f.position nw.2.position < (1 / 2) ^ 2

instance (f : Flight) (nw : String × Waypoint) : Decidable (wpHit f nw) := by
  unfold wpHit
  infer_instance

/-- The number of near-miss pairs of one pass that are new against the
previous pass's active set: the increment `check_separations` makes on a
collision-free pass. -/
def newNearMissCount (prev : List (String × String))
    (l : List (Flight × Flight)) : Nat :=
  (l.filter (fun p => decide (nearMissCond p.1 p.2) &&
    !decide (pairKey p.1.callsign p.2.callsign ∈ prev))).length

/-- The "currently conflicting" set built by a collision-free pass of
`check_separations` (keys appended in scan order, no duplicates). -/
def curNearMisses (cur : List (String × String)) :
    List (Flight × Flight) → List (String × String)
  | [] => cur
  | p :: rest =>
    if nearMissCond p.1 p.2 then
      curNearMisses
        (if pairKey p.1.callsign p.2.callsign ∈ cur then cur
         else cur ++ [pairKey p.1.callsign p.2.callsign]) rest
    else curNearMisses cur rest

/-- An approaching arrival well below a far target altitude. -/
def c4wflight : Flight :=
  { mkFlight "UAL301" FlightType.ARRIVAL "B738" ⟨10, 10⟩ 1000 250 0 with
      target_altitude := 4000 }

/-- An unknown-waypoint command combined with an altitude field. -/
def c9wcmd : FlightCommand := { altitude := some 4000, waypoint := some "NOPE" }

end SimApp

/-! ## Proof development -/

/-! ## List index helpers -/

theorem getD_set_self {E : Type} (l : List E) (i : Nat) (v d : E)
    (h : i < l.length) : (l.set i v).getD i d = v := by
  induction l generalizing i with
  | nil => simp at h
  | cons a t ih =>
    cases i with
    | zero => simp [List.set, List.getD]
    | succ j =>
      simp only [List.set, List.getD, List.getElem?_cons_succ]
      exact ih j (by simpa using h)

theorem getD_set_ne {E : Type} (l : List E) (i j : Nat) (v d : E)
    (h : i ≠ j) : (l.set i v).getD j d = l.getD j d := by
  induction l generalizing i j with
  | nil => simp [List.set]
  | cons a t ih =>
    cases i with
    | zero =>
      cases j with
      | zero => exact absurd rfl h
      | succ j2 => simp [List.set, List.getD]
    | succ i2 =>
      cases j with
      | zero => simp [List.set, List.getD]
      | succ j2 =>
        simp only [List.set, List.getD, List.getElem?_cons_succ]
        exact ih i2 j2 (fun hc => h (by simp [hc]))

theorem getD_mem {E : Type} (l : List E) (i : Nat) (d : E)
    (h : i < l.length) : l.getD i d ∈ l := by
  induction l generalizing i with
  | nil => simp at h
  | cons a t ih =>
    cases i with
    | zero => simp [List.getD]
    | succ j =>
      simp only [List.getD, List.getElem?_cons_succ]
      exact List.mem_cons_of_mem _ (ih j (by simpa using h))

theorem mem_set_or {E : Type} {l : List E} {i : Nat} {v a : E}
    (h : a ∈ l.set i v) : a ∈ l ∨ a = v := by
  induction l generalizing i with
  | nil => simp [List.set] at h
  | cons b t ih =>
    cases i with
    | zero =>
      rcases List.mem_cons.mp h with h1 | h1
      · exact Or.inr h1
      · exact Or.inl (List.mem_cons_of_mem _ h1)
    | succ j =>
      rcases List.mem_cons.mp h with h1 | h1
      · exact Or.inl (h1 ▸ List.mem_cons_self _ _)
      · rcases ih h1 with h2 | h2
        · exact Or.inl (List.mem_cons_of_mem _ h2)
        · exact Or.inr h2

theorem getD_dropLast {E : Type} (l : List E) (i : Nat) (d : E)
    (h : i + 1 < l.length) : l.dropLast.getD i d = l.getD i d := by
  induction l generalizing i with
  | nil => simp at h
  | cons a t ih =>
    cases t with
    | nil => simp at h
    | cons b t2 =>
      cases i with
      | zero => simp [List.dropLast, List.getD]
      | succ j =>
        simp only [List.dropLast, List.getD, List.getElem?_cons_succ]
        have := ih (i := j) (by simpa using h)
        simpa [List.getD] using this

theorem getD_append_left {E : Type} {l l2 : List E} {i : Nat} {d : E}
    (h : i < l.length) : (l ++ l2).getD i d = l.getD i d := by
  induction l generalizing i with
  | nil => simp at h
  | cons a t ih =>
    cases i with
    | zero => simp [List.getD]
    | succ j =>
      simp only [List.cons_append, List.getD, List.getElem?_cons_succ]
      have := ih (i := j) (by simpa using h)
      simpa [List.getD] using this

/-- Exchanging the element at index `i` by the element at index `j`
and then overwriting index `j` is, up to permutation, the same as just
overwriting index `i`.  This is the net effect of one step of a heap
sift loop. -/
theorem set_swap_perm {E : Type} (l : List E) (i j : Nat) (b d : E)
    (hi : i < l.length) (hj : j < l.length) (hne : i ≠ j) :
    ((l.set i (l.getD j d)).set j b).Perm (l.set i b) := by
  induction l generalizing i j with
  | nil => simp at hi
  | cons a t ih =>
    cases i with
    | zero =>
      cases j with
      | zero => exact absurd rfl hne
      | succ j2 =>
        -- goal: (t.getD j2 d :: t.set j2 b) is a permutation of (b :: t)
        simp only [List.getD_cons_succ, List.set]
        have hj2 : j2 < t.length := by simpa using hj
        clear ih hne hi hj
        induction t generalizing j2 with
        | nil => simp at hj2
        | cons c t2 ih2 =>
          cases j2 with
          | zero =>
            simpa [List.set] using List.Perm.swap b c t2
          | succ k =>
            have hk : k < t2.length := by simpa using hj2
            have step := ih2 k hk
            have e1 : (c :: t2).getD (k+1) d :: (c :: t2).set (k+1) b
                = t2.getD k d :: c :: t2.set k b := by
              simp [List.set]
            rw [e1]
            have p1 : List.Perm (t2.getD k d :: c :: t2.set k b)
                (c :: t2.getD k d :: t2.set k b) := List.Perm.swap _ _ _
            have p2 : List.Perm (c :: (t2.getD k d :: t2.set k b))
                (c :: (b :: t2)) := step.cons c
            have p3 : List.Perm (c :: b :: t2) (b :: c :: t2) :=
              List.Perm.swap _ _ _
            exact p1.trans (p2.trans p3)
    | succ i2 =>
      cases j with
      | zero =>
        -- goal: (b :: t.set i2 a) is a permutation of (a :: t.set i2 b)
        simp only [List.getD_cons_zero, List.set]
        have hi2 : i2 < t.length := by simpa using hi
        clear ih hne hi hj
        induction t generalizing i2 with
        | nil => simp at hi2
        | cons c t2 ih2 =>
          cases i2 with
          | zero =>
            simpa [List.set] using List.Perm.swap a b t2
          | succ k =>
            have hk : k < t2.length := by simpa using hi2
            have step := ih2 k hk
            have e1 : b :: (c :: t2).set (k+1) a = b :: c :: t2.set k a := by
              simp [List.set]
            have e2 : a :: (c :: t2).set (k+1) b = a :: c :: t2.set k b := by
              simp [List.set]
            rw [e1, e2]
            have p1 : List.Perm (b :: c :: t2.set k a)
                (c :: b :: t2.set k a) := List.Perm.swap _ _ _
            have p2 : List.Perm (c :: (b :: t2.set k a))
                (c :: (a :: t2.set k b)) := step.cons c
            have p3 : List.Perm (c :: a :: t2.set k b)
                (a :: c :: t2.set k b) := List.Perm.swap _ _ _
            exact p1.trans (p2.trans p3)
      | succ j2 =>
        simp only [List.getD_cons_succ, List.set]
        exact (ih i2 j2 (by simpa using hi) (by simpa using hj)
          (fun hc => hne (by simp [hc]))).cons a

theorem set_getD_self {E : Type} (l : List E) (i : Nat) (d : E)
    (h : i < l.length) : l.set i (l.getD i d) = l := by
  induction l generalizing i with
  | nil => simp
  | cons a t ih =>
    cases i with
    | zero => simp [List.set, List.getD]
    | succ j =>
      simp only [List.set, List.getD, List.getElem?_cons_succ, List.cons.injEq,
        true_and]
      exact ih j (by simpa using h)

section Heapq

variable {E : Type} [Inhabited E] (val : E → Int)

theorem hval_set_self {l : List E} {i : Nat} {v : E} (h : i < l.length) :
    hval val (l.set i v) i = val v := by
  unfold hval
  exact congrArg val (getD_set_self l i v default h)

theorem hval_set_ne {l : List E} {i j : Nat} {v : E} (h : i ≠ j) :
    hval val (l.set i v) j = hval val l j := by
  unfold hval
  exact congrArg val (getD_set_ne l i j v default h)

theorem siftdownAux_length (newitem : E) (startpos fuel : Nat)
    (l : List E) (pos : Nat) :
    (siftdownAux val newitem startpos fuel l pos).length = l.length := by
  induction fuel generalizing l pos with
  | zero => simp [siftdownAux]
  | succ n ih =>
    simp only [siftdownAux]
    split
    · split
      · rw [ih]; simp
      · simp
    · simp

theorem siftupAux_length (newitem : E) (startpos fuel : Nat)
    (l : List E) (pos : Nat) :
    (siftupAux val newitem startpos fuel l pos).length = l.length := by
  induction fuel generalizing l pos with
  | zero => simp [siftupAux, siftdownAux_length]
  | succ n ih =>
    simp only [siftupAux]
    split
    · split
      · rw [ih]; simp
      · rw [ih]; simp
    · simp [siftdownAux_length]

theorem siftdownAux_perm (newitem : E) (fuel : Nat) (l : List E) (pos : Nat)
    (hfuel : pos ≤ fuel) (hpos : pos < l.length) :
    (siftdownAux val newitem 0 fuel l pos).Perm (l.set pos newitem) := by
  induction fuel generalizing l pos with
  | zero => exact List.Perm.refl _
  | succ n ih =>
    simp only [siftdownAux]
    split
    · split
      · rename_i h1 _
        refine (ih _ _ (by omega) (by simp; omega)).trans ?_
        exact set_swap_perm l pos ((pos - 1) / 2) newitem default hpos
          (by omega) (by omega)
      · exact List.Perm.refl _
    · exact List.Perm.refl _

theorem siftupAux_perm (newitem : E) (fuel : Nat) (l : List E) (pos : Nat)
    (hfuel : l.length ≤ fuel + pos) (hpos : pos < l.length) :
    (siftupAux val newitem 0 fuel l pos).Perm (l.set pos newitem) := by
  induction fuel generalizing l pos with
  | zero => omega
  | succ n ih =>
    simp only [siftupAux]
    split
    · split
      · rename_i h1 h2
        refine (ih _ _ (by simp; omega) (by simp; omega)).trans ?_
        exact set_swap_perm l pos (2 * pos + 2) newitem default hpos
          (by omega) (by omega)
      · rename_i h1 h2
        refine (ih _ _ (by simp; omega) (by simp; omega)).trans ?_
        exact set_swap_perm l pos (2 * pos + 1) newitem default hpos
          (by omega) (by omega)
    · rename_i h1
      refine (siftdownAux_perm val newitem pos _ pos (le_refl _)
        (by simp; omega)).trans ?_
      rw [List.set_set]

/-- Heap property of a final `heap[pos] = newitem` write: all pairs away
from `pos` already satisfy the invariant, `newitem` is below the children
of `pos` and (when `pos` is not the root) above its parent. -/
theorem setFinal_heapInv (l : List E) (pos : Nat) (newitem : E)
    (hpos : pos < l.length)
    (hA : ∀ i, 0 < i → i < l.length → i ≠ pos →
      hval val l ((i - 1) / 2) ≤ hval val l i)
    (hA2 : ∀ c, 0 < c → c < l.length → (c - 1) / 2 = pos →
      val newitem ≤ hval val l c)
    (hpar : 0 < pos → hval val l ((pos - 1) / 2) ≤ val newitem) :
    HeapInv val (l.set pos newitem) := by
  intro i hi hilen
  rw [List.length_set] at hilen
  by_cases hip : i = pos
  · subst hip
    rw [hval_set_self val hpos, hval_set_ne val (by omega : i ≠ (i - 1) / 2)]
    exact hpar hi
  · by_cases hpp : (i - 1) / 2 = pos
    · rw [hpp, hval_set_self val hpos, hval_set_ne val (Ne.symm hip)]
      exact hA2 i hi hilen hpp
    · rw [hval_set_ne val (Ne.symm hpp), hval_set_ne val (Ne.symm hip)]
      exact hA i hi hilen hip

theorem siftdownAux_heapInv (newitem : E) (fuel : Nat) (l : List E) (pos : Nat)
    (hfuel : pos ≤ fuel) (hpos : pos < l.length)
    (hA : ∀ i, 0 < i → i < l.length → i ≠ pos →
      hval val l ((i - 1) / 2) ≤ hval val l i)
    (hA2 : ∀ c, 0 < c → c < l.length → (c - 1) / 2 = pos →
      val newitem ≤ hval val l c)
    (hG : 0 < pos → ∀ c, 0 < c → c < l.length → (c - 1) / 2 = pos →
      hval val l ((pos - 1) / 2) ≤ hval val l c) :
    HeapInv val (siftdownAux val newitem 0 fuel l pos) := by
  induction fuel generalizing l pos with
  | zero =>
    have hp0 : pos = 0 := by omega
    subst hp0
    exact setFinal_heapInv val l 0 newitem hpos hA hA2 (by omega)
  | succ n ih =>
    simp only [siftdownAux]
    by_cases h1 : 0 < pos
    · rw [if_pos h1]
      by_cases h2 : val newitem < val (l.getD ((pos - 1) / 2) default)
      · rw [if_pos h2]
        have hparlt : (pos - 1) / 2 < pos := by omega
        have hparlen : (pos - 1) / 2 < l.length := by omega
        apply ih
        · omega
        · simpa using hparlen
        · -- hA for (l.set pos parent, parentpos)
          intro i hi hilen hine
          rw [List.length_set] at hilen
          by_cases hip : i = pos
          · subst hip
            rw [hval_set_self val hpos, hval_set_ne val (by omega : i ≠ (i - 1) / 2)]
            -- both sides are the parent value
            exact le_of_eq rfl
          · by_cases hpp : (i - 1) / 2 = pos
            · rw [hpp, hval_set_self val hpos, hval_set_ne val (Ne.symm hip)]
              exact hG h1 i hi hilen hpp
            · rw [hval_set_ne val (Ne.symm hpp), hval_set_ne val (Ne.symm hip)]
              exact hA i hi hilen hip
        · -- hA2: newitem is below the children of parentpos
          intro c hc hclen hcp
          rw [List.length_set] at hclen
          by_cases hcpos : c = pos
          · subst hcpos
            rw [hval_set_self val hpos]
            exact le_of_lt h2
          · rw [hval_set_ne val (Ne.symm hcpos)]
            refine le_of_lt (lt_of_lt_of_le h2 ?_)
            have := hA c hc hclen hcpos
            rw [hcp] at this
            exact this
        · -- hG: grandparent of parentpos is below the children of parentpos
          intro hpp0 c hc hclen hcp
          rw [List.length_set] at hclen
          have hgpar : ((pos - 1) / 2 - 1) / 2 ≠ pos := by omega
          rw [hval_set_ne val (Ne.symm hgpar)]
          have hgp : hval val l (((pos - 1) / 2 - 1) / 2) ≤ hval val l ((pos - 1) / 2) :=
            hA ((pos - 1) / 2) hpp0 hparlen (by omega)
          by_cases hcpos : c = pos
          · subst hcpos
            rw [hval_set_self val hpos]
            exact hgp
          · rw [hval_set_ne val (Ne.symm hcpos)]
            refine hgp.trans ?_
            have := hA c hc hclen hcpos
            rw [hcp] at this
            exact this
      · rw [if_neg h2]
        exact setFinal_heapInv val l pos newitem hpos hA hA2
          (fun _ => le_of_not_lt h2)
    · rw [if_neg h1]
      have hp0 : pos = 0 := by omega
      subst hp0
      exact setFinal_heapInv val l 0 newitem hpos hA hA2 (by omega)

theorem siftupAux_heapInv (newitem : E) (fuel : Nat) (l : List E) (pos : Nat)
    (hfuel : l.length ≤ fuel + pos) (hpos : pos < l.length)
    (hA : ∀ i, 0 < i → i < l.length → i ≠ pos → (i - 1) / 2 ≠ pos →
      hval val l ((i - 1) / 2) ≤ hval val l i)
    (hG : 0 < pos → ∀ c, 0 < c → c < l.length → (c - 1) / 2 = pos →
      hval val l ((pos - 1) / 2) ≤ hval val l c) :
    HeapInv val (siftupAux val newitem 0 fuel l pos) := by
  induction fuel generalizing l pos with
  | zero => omega
  | succ n ih =>
    simp only [siftupAux]
    by_cases h1 : 2 * pos + 1 < l.length
    · rw [if_pos h1]
      -- `descend chosen` handles both child choices uniformly
      have descend : ∀ chosen, chosen = 2 * pos + 1 ∨ chosen = 2 * pos + 2 →
          chosen < l.length →
          (∀ s, 0 < s → s < l.length → (s - 1) / 2 = pos → s ≠ chosen →
            hval val l chosen ≤ hval val l s) →
          HeapInv val (siftupAux val newitem 0 n
            (l.set pos (l.getD chosen default)) chosen) := by
        intro chosen hch hchlen hmin
        have hchpar : (chosen - 1) / 2 = pos := by omega
        have hchpos : pos < chosen := by omega
        apply ih
        · simp; omega
        · simpa using hchlen
        · intro i hi hilen hine hipar
          rw [List.length_set] at hilen
          by_cases hip : i = pos
          · subst hip
            rw [hval_set_self val hpos,
              hval_set_ne val (by omega : i ≠ (i - 1) / 2)]
            -- instance of hG: grandchild condition across the old hole
            exact hG hi chosen (by omega) hchlen hchpar
          · by_cases hpp : (i - 1) / 2 = pos
            · rw [hpp, hval_set_self val hpos, hval_set_ne val (Ne.symm hip)]
              exact hmin i hi hilen hpp hine
            · rw [hval_set_ne val (Ne.symm hpp), hval_set_ne val (Ne.symm hip)]
              exact hA i hi hilen hip hpp
        · intro hch0 c hc hclen hcp
          rw [List.length_set] at hclen
          rw [hchpar, hval_set_self val hpos]
          have hcne_pos : c ≠ pos := by omega
          have hcne_ch : c ≠ chosen := by omega
          have hcp_ne : (c - 1) / 2 ≠ pos := by omega
          rw [hval_set_ne val (Ne.symm hcne_pos)]
          have := hA c hc hclen hcne_pos hcp_ne
          rw [hcp] at this
          exact this
      split
      · rename_i h2
        refine descend (2 * pos + 2) (Or.inr rfl) (by omega) ?_
        intro s hs hslen hsp hsne
        have hs1 : s = 2 * pos + 1 := by omega
        subst hs1
        exact le_of_not_lt (by simpa [hval] using h2.2)
      · rename_i h2
        refine descend (2 * pos + 1) (Or.inl rfl) (by omega) ?_
        intro s hs hslen hsp hsne
        have hs2 : s = 2 * pos + 2 := by omega
        subst hs2
        have h2' : ¬ (2 * pos + 2 < l.length ∧
            ¬ val (l.getD (2 * pos + 1) default) < val (l.getD (2 * pos + 2) default)) := h2
        have : val (l.getD (2 * pos + 1) default) < val (l.getD (2 * pos + 2) default) := by
          by_contra hcon
          exact h2' ⟨hslen, hcon⟩
        exact le_of_lt (by simpa [hval] using this)
    · rw [if_neg h1]
      apply siftdownAux_heapInv val newitem pos _ pos (le_refl _) (by simpa using hpos)
      · intro i hi hilen hine
        rw [List.length_set] at hilen
        have hipar : (i - 1) / 2 ≠ pos := by omega
        rw [hval_set_ne val (Ne.symm hipar), hval_set_ne val (Ne.symm hine)]
        exact hA i hi hilen hine hipar
      · intro c hc hclen hcp
        rw [List.length_set] at hclen
        omega
      · intro hp0 c hc hclen hcp
        rw [List.length_set] at hclen
        omega

theorem heapInv_root_le (l : List E) (h : HeapInv val l) :
    ∀ i, i < l.length → hval val l 0 ≤ hval val l i := by
  intro i
  induction i using Nat.strong_induction_on with
  | _ i ih =>
    intro hi
    rcases Nat.eq_zero_or_pos i with h0 | h0
    · subst h0; exact le_refl _
    · exact (ih ((i - 1) / 2) (by omega) (by omega)).trans (h i h0 hi)

theorem heappush_perm (l : List E) (x : E) :
    (heappush val l x).Perm (x :: l) := by
  unfold heappush
  have hset : (l ++ [x]).set l.length x = l ++ [x] := by
    induction l with
    | nil => rfl
    | cons a t ih => simp [List.set, ih]
  refine (siftdownAux_perm val x l.length (l ++ [x]) l.length (le_refl _)
    (by simp)).trans ?_
  rw [hset]
  exact List.perm_append_singleton x l

theorem heappush_length (l : List E) (x : E) :
    (heappush val l x).length = l.length + 1 := by
  have := (heappush_perm val l x).length_eq
  simpa using this

theorem heappush_heapInv (l : List E) (x : E) (h : HeapInv val l) :
    HeapInv val (heappush val l x) := by
  unfold heappush
  apply siftdownAux_heapInv val x l.length (l ++ [x]) l.length (le_refl _)
    (by simp)
  · intro i hi hilen hine
    have hilen2 : i < l.length + 1 := by simpa using hilen
    have hilt : i < l.length := by omega
    have e1 : hval val (l ++ [x]) ((i - 1) / 2) = hval val l ((i - 1) / 2) := by
      unfold hval
      rw [getD_append_left (by omega)]
    have e2 : hval val (l ++ [x]) i = hval val l i := by
      unfold hval
      rw [getD_append_left hilt]
    rw [e1, e2]
    exact h i hi hilt
  · intro c hc hclen hcp
    have : c < l.length + 1 := by simpa using hclen
    omega
  · intro hp0 c hc hclen hcp
    have : c < l.length + 1 := by simpa using hclen
    omega

theorem siftup_length (l : List E) (pos : Nat) :
    (siftup val l pos).length = l.length := by
  unfold siftup
  rw [siftupAux_length]

theorem heappop_single (a : E) : heappop val [a] = some (a, []) := rfl

theorem heappop_cons2 (a b : E) (t : List E) :
    heappop val (a :: b :: t) =
      some (a, siftup val (((a :: b :: t).dropLast).set 0
        ((a :: b :: t).getLast (List.cons_ne_nil a (b :: t)))) 0) := rfl

theorem heappop_fst {l : List E} {e : E} {l2 : List E}
    (h : heappop val l = some (e, l2)) : e = l.getD 0 default := by
  match l with
  | [] => simp [heappop] at h
  | [a] =>
    rw [heappop_single] at h
    simp at h
    simp [h.1, List.getD]
  | a :: b :: t =>
    rw [heappop_cons2] at h
    simp at h
    simp [h.1, List.getD]

theorem heappop_length {l : List E} {e : E} {l2 : List E}
    (h : heappop val l = some (e, l2)) : l2.length + 1 = l.length := by
  match l with
  | [] => simp [heappop] at h
  | [a] =>
    rw [heappop_single] at h
    simp at h
    simp [h.2]
  | a :: b :: t =>
    rw [heappop_cons2] at h
    simp at h
    rw [← h.2, siftup_length]
    simp

theorem heappop_perm {l : List E} {e : E} {l2 : List E}
    (h : heappop val l = some (e, l2)) : l.Perm (e :: l2) := by
  match l with
  | [] => simp [heappop] at h
  | [a] =>
    rw [heappop_single] at h
    simp at h
    rw [h.1, h.2]
  | a :: b :: t =>
    rw [heappop_cons2] at h
    simp at h
    obtain ⟨he, hl2⟩ := h
    subst he
    have hbt : (b :: t) ≠ [] := List.cons_ne_nil b t
    have hpop : l2.Perm ((b :: t).getLast hbt :: (b :: t).dropLast) := by
      rw [← hl2]
      unfold siftup
      have h0 : (0 : Nat) <
          ((b :: t).getLast hbt :: (b :: t).dropLast).length := by simp
      refine (siftupAux_perm val _ _ _ 0 (by omega) h0).trans ?_
      rw [set_getD_self _ 0 default h0]
    have hsplit : (b :: t).dropLast ++ [(b :: t).getLast hbt] = b :: t :=
      List.dropLast_append_getLast hbt
    have hperm2 : (b :: t).Perm ((b :: t).getLast hbt :: (b :: t).dropLast) := by
      conv_lhs => rw [← hsplit]
      exact List.perm_append_singleton _ _
    exact (hperm2.trans hpop.symm).cons a

theorem heappop_subset {l : List E} {e : E} {l2 : List E}
    (h : heappop val l = some (e, l2)) : ∀ x ∈ l2, x ∈ l := by
  intro x hx
  exact (heappop_perm val h).mem_iff.mpr (List.mem_cons_of_mem _ hx)

theorem heappop_heapInv {l : List E} {e : E} {l2 : List E}
    (hinv : HeapInv val l) (h : heappop val l = some (e, l2)) :
    HeapInv val l2 := by
  match l with
  | [] => simp [heappop] at h
  | [a] =>
    rw [heappop_single] at h
    simp at h
    rw [h.2]
    intro i hi hlen
    simp at hlen
  | a :: b :: t =>
    rw [heappop_cons2] at h
    simp at h
    rw [← h.2]
    -- views of slots `j ≥ 1` of the shrunk heap inside the original one
    have hv : ∀ (g : E) (j : Nat), 0 < j → j < t.length + 1 →
        hval val (g :: (b :: t).dropLast) j = hval val (a :: b :: t) j := by
      intro g j hj hjlen
      obtain ⟨k, rfl⟩ : ∃ k, j = k + 1 := ⟨j - 1, by omega⟩
      unfold hval
      rw [List.getD_cons_succ, List.getD_cons_succ]
      exact congrArg val (getD_dropLast (b :: t) k default (by simp; omega))
    have key : ∀ g : E, HeapInv val (siftup val (g :: (b :: t).dropLast) 0) := by
      intro g
      unfold siftup
      apply siftupAux_heapInv val _ _ _ 0 (by omega) (by simp)
      · intro i hi hilen hine hipar
        have hilen2 : i < t.length + 1 := by simpa using hilen
        rw [hv g ((i - 1) / 2) (by omega) (by omega), hv g i hi hilen2]
        exact hinv i hi (by simp; omega)
      · intro hcon
        exact absurd hcon (lt_irrefl 0)
    exact key _

theorem exists_getD_of_mem {E : Type} (l : List E) (d x : E) (h : x ∈ l) :
    ∃ i, i < l.length ∧ l.getD i d = x := by
  induction l with
  | nil => simp at h
  | cons a t ih =>
    rcases List.mem_cons.mp h with h1 | h1
    · exact ⟨0, by simp, by simp [List.getD, h1]⟩
    · obtain ⟨i, hi, hgd⟩ := ih h1
      exact ⟨i + 1, by simp; omega, by simpa [List.getD] using hgd⟩

theorem heappop_min {l : List E} {e : E} {l2 : List E}
    (hinv : HeapInv val l) (h : heappop val l = some (e, l2)) :
    ∀ x ∈ l, val e ≤ val x := by
  intro x hx
  obtain ⟨i, hi, hgd⟩ := exists_getD_of_mem l default x hx
  rw [heappop_fst val h, ← hgd]
  exact heapInv_root_le val l hinv i hi

theorem popAll_perm (fuel : Nat) (l : List E) (hfuel : l.length ≤ fuel) :
    (popAll val fuel l).Perm l := by
  induction fuel generalizing l with
  | zero =>
    have : l = [] := List.length_eq_zero.mp (by omega)
    subst this
    exact List.Perm.refl _
  | succ n ih =>
    rcases hpop : heappop val l with _ | ⟨e, l2⟩
    · have : l = [] := by
        cases l with
        | nil => rfl
        | cons a t =>
          cases t with
          | nil => rw [heappop_single] at hpop; exact absurd hpop (by simp)
          | cons b t2 => rw [heappop_cons2] at hpop; exact absurd hpop (by simp)
      subst this
      exact List.Perm.refl _
    · have hlen := heappop_length val hpop
      have := ih l2 (by omega)
      rw [popAll, hpop]
      exact (this.cons e).trans (heappop_perm val hpop).symm

theorem popAll_sorted (fuel : Nat) (l : List E) (hfuel : l.length ≤ fuel)
    (hinv : HeapInv val l) :
    (popAll val fuel l).Pairwise (fun a b => val a ≤ val b) := by
  induction fuel generalizing l with
  | zero => simp [popAll]
  | succ n ih =>
    rcases hpop : heappop val l with _ | ⟨e, l2⟩
    · rw [popAll, hpop]
      exact List.Pairwise.nil
    · have hlen := heappop_length val hpop
      rw [popAll, hpop]
      refine List.pairwise_cons.mpr ⟨?_, ih l2 (by omega)
        (heappop_heapInv val hinv hpop)⟩
      intro b hb
      have hb2 : b ∈ l2 :=
        (popAll_perm val n l2 (by omega)).mem_iff.mp hb
      exact heappop_min val hinv hpop b (heappop_subset val hpop b hb2)

end Heapq

/-! ### Scheduler and airport lemmas (agent model) -/

namespace Agent

theorem applyOp_heap (s : FlightScheduler) (op : SchedulerOp) :
    (applyOp s op).schedule_heap =
      heappush entryVal s.schedule_heap (entryOf op) := by
  cases op <;> rfl

theorem applyOps_heap_perm (ops : List SchedulerOp) (s : FlightScheduler) :
    (applyOps s ops).schedule_heap.Perm
      (ops.map entryOf ++ s.schedule_heap) := by
  induction ops generalizing s with
  | nil => simp [applyOps]
  | cons op rest ih =>
    have h1 : (applyOps s (op :: rest)).schedule_heap
        = (applyOps (applyOp s op) rest).schedule_heap := rfl
    rw [h1]
    refine (ih (applyOp s op)).trans ?_
    rw [applyOp_heap]
    have h2 : (heappush entryVal s.schedule_heap (entryOf op)).Perm
        (entryOf op :: s.schedule_heap) := heappush_perm entryVal _ _
    refine (List.Perm.append_left _ h2).trans ?_
    simp only [List.map_cons, List.cons_append]
    exact List.perm_middle

theorem applyOps_heapInv (ops : List SchedulerOp) (s : FlightScheduler)
    (h : HeapInv entryVal s.schedule_heap) :
    HeapInv entryVal (applyOps s ops).schedule_heap := by
  induction ops generalizing s with
  | nil => exact h
  | cons op rest ih =>
    have h1 : (applyOps s (op :: rest)).schedule_heap
        = (applyOps (applyOp s op) rest).schedule_heap := rfl
    rw [h1]
    apply ih
    rw [applyOp_heap]
    exact heappush_heapInv entryVal _ _ h

theorem nil_heapInv : HeapInv entryVal ([] : List ScheduleEntry) := by
  intro i hi hlen
  simp at hlen

theorem entryOf_mayday_val (op : SchedulerOp)
    (h : (entryOf op).used_for = FlightStatus.MAYDAY) :
    (entryOf op).value = -1 := by
  cases op <;> simp_all [entryOf]

theorem entryOf_nonmayday_val (op : SchedulerOp) (ht : op.timeNonneg)
    (h : (entryOf op).used_for ≠ FlightStatus.MAYDAY) :
    0 ≤ (entryOf op).value := by
  cases op <;> simp_all [entryOf, SchedulerOp.timeNonneg]

theorem assignFirstAvailable_none (rs : List Runway) (f : Flight)
    (st en : Int) (h : ∀ r ∈ rs, r.status ≠ RunwayStatus.AVAILABLE) :
    assignFirstAvailable rs f st en = none := by
  induction rs with
  | nil => rfl
  | cons r rest ih =>
    unfold assignFirstAvailable
    rw [if_neg (h r (List.mem_cons_self r rest))]
    rw [ih (fun r2 h2 => h r2 (List.mem_cons_of_mem r h2))]
    rfl

theorem assignFirstAvailable_at (rs : List Runway) (f : Flight)
    (st en : Int) (i : Nat) (hi : i < rs.length)
    (havail : (rs.getD i default).status = RunwayStatus.AVAILABLE)
    (hfirst : ∀ j, j < i → (rs.getD j default).status ≠ RunwayStatus.AVAILABLE) :
    assignFirstAvailable rs f st en = some (rs.set i
      { rs.getD i default with
          status := RunwayStatus.OCCUPIED,
          current_flight := some f,
          operation_start_time := some st,
          operation_end_time := some en }) := by
  induction rs generalizing i with
  | nil => simp at hi
  | cons r rest ih =>
    cases i with
    | zero =>
      have hr : r.status = RunwayStatus.AVAILABLE := by
        simpa [List.getD] using havail
      unfold assignFirstAvailable
      rw [if_pos hr]
      simp only [List.set]
      have : (r.assign_flight f st en).1 =
          { r with
              status := RunwayStatus.OCCUPIED,
              current_flight := some f,
              operation_start_time := some st,
              operation_end_time := some en } := by
        unfold Runway.assign_flight
        rw [if_neg (by simp [hr])]
      rw [this]
      simp [List.getD]
    | succ j =>
      have hr : r.status ≠ RunwayStatus.AVAILABLE := by
        have := hfirst 0 (Nat.succ_pos j)
        simpa [List.getD] using this
      unfold assignFirstAvailable
      rw [if_neg hr]
      rw [ih j (by simpa using hi) (by simpa [List.getD] using havail)
        (fun k hk => by simpa [List.getD] using hfirst (k + 1) (by omega))]
      simp [List.set, List.getD]

theorem process_next_flight_eq (a : Airport) (e : ScheduleEntry)
    (h2 : List ScheduleEntry)
    (hpop : heappop entryVal a.flight_scheduler.schedule_heap = some (e, h2)) :
    a.process_next_flight =
      match assignFirstAvailable a.runways e.flight e.slot_info.start_time
          e.slot_info.end_time with
      | none => ({ a with flight_scheduler := ⟨h2⟩ }, false)
      | some rs2 =>
        ({ a with flight_scheduler := ⟨h2⟩, runways := rs2 }, true) := by
  unfold Airport.process_next_flight FlightScheduler.get_next_flight
  rw [hpop]

end Agent

/-! ### Claim theorems for the scheduler (C3, C6) -/

/-- C3 counterexample: four equal-priority landings (all at time 1000)
pop in the order F001, F003, F002, F004 — not their insertion order
F001, F002, F003, F004.  `ScheduleEntry` has no sequence number and the
CPython binary heap is not stable, refuting the claim's
equal-priority-pops-in-insertion-order part. -/
theorem C3_counterexample :
    (Agent.applyOps {} Agent.tieOps).popAllEntries =
      [Agent.tieEntry Agent.flightF1, Agent.tieEntry Agent.flightF3,
       Agent.tieEntry Agent.flightF2, Agent.tieEntry Agent.flightF4]
    ∧ (Agent.applyOps {} Agent.tieOps).popAllEntries ≠
        Agent.tieOps.map Agent.entryOf := by
  decide

/-- C3 (amended): draining the scheduler by repeated `get_next_flight`
returns exactly the pending entries, in non-decreasing priority-value
order; as a mayday's sentinel `-1` is below every non-negative
landing/takeoff time, every mayday pops before every landing/takeoff
entry.  Entries of equal priority may pop in any order (the insertion
order tie-break of the original claim fails, see `C3_counterexample`).
The spec's concrete example — landing@1000, takeoff@1100, landing@1050,
then mayday — pops as mayday, landing@1000, landing@1050, takeoff@1100. -/
theorem C3_scheduler_priority_order (ops : List Agent.SchedulerOp)
    (htimes : ∀ op ∈ ops, op.timeNonneg) :
    (Agent.applyOps {} ops).popAllEntries.Perm (ops.map Agent.entryOf)
    ∧ (Agent.applyOps {} ops).popAllEntries.Pairwise
        (fun e1 e2 => e1.value ≤ e2.value)
    ∧ (Agent.applyOps {} ops).popAllEntries.Pairwise
        (fun e1 e2 => e2.used_for = Agent.FlightStatus.MAYDAY →
          e1.used_for = Agent.FlightStatus.MAYDAY)
    ∧ (Agent.applyOps {} Agent.exampleOps).popAllEntries =
        [⟨-1, Agent.flightF4, ⟨2000, 2400⟩, Agent.FlightStatus.MAYDAY⟩,
         ⟨1000, Agent.flightF1, ⟨1000, 1300⟩, Agent.FlightStatus.LANDING⟩,
         ⟨1050, Agent.flightF2, ⟨1050, 1350⟩, Agent.FlightStatus.LANDING⟩,
         ⟨1100, Agent.flightF3, ⟨1100, 1300⟩, Agent.FlightStatus.TAKEOFF⟩] := by
  have hperm0 : (Agent.applyOps {} ops).schedule_heap.Perm
      (ops.map Agent.entryOf) := by
    simpa using Agent.applyOps_heap_perm ops {}
  have hinv : HeapInv Agent.entryVal (Agent.applyOps {} ops).schedule_heap :=
    Agent.applyOps_heapInv ops {} Agent.nil_heapInv
  have hpa : (Agent.applyOps {} ops).popAllEntries.Perm
      (Agent.applyOps {} ops).schedule_heap :=
    popAll_perm Agent.entryVal _ _ (le_refl _)
  have hsorted : (Agent.applyOps {} ops).popAllEntries.Pairwise
      (fun e1 e2 => Agent.entryVal e1 ≤ Agent.entryVal e2) :=
    popAll_sorted Agent.entryVal _ _ (le_refl _) hinv
  have hchar : ∀ e ∈ (Agent.applyOps {} ops).popAllEntries,
      (e.used_for = Agent.FlightStatus.MAYDAY → e.value = -1)
      ∧ (e.used_for ≠ Agent.FlightStatus.MAYDAY → 0 ≤ e.value) := by
    intro e he
    have he2 : e ∈ ops.map Agent.entryOf :=
      (hpa.trans hperm0).mem_iff.mp he
    obtain ⟨op, hop, rfl⟩ := List.mem_map.mp he2
    exact ⟨Agent.entryOf_mayday_val op,
      Agent.entryOf_nonmayday_val op (htimes op hop)⟩
  refine ⟨hpa.trans hperm0, hsorted, ?_, by decide⟩
  refine hsorted.imp_of_mem ?_
  intro e1 e2 h1 h2 hle hmay2
  by_contra hne1
  have hv1 : 0 ≤ e1.value := (hchar e1 h1).2 hne1
  have hv2 : e2.value = -1 := (hchar e2 h2).1 hmay2
  have : Agent.entryVal e1 ≤ Agent.entryVal e2 := hle
  unfold Agent.entryVal at this
  omega

/-- C3 witness: the general theorem applied to the spec's example
insertion sequence. -/
theorem C3_witness :
    (Agent.applyOps {} Agent.exampleOps).popAllEntries.Pairwise
      (fun e1 e2 => e1.value ≤ e2.value) :=
  (C3_scheduler_priority_order Agent.exampleOps (by decide)).2.1

/-- C6: `process_next_flight` with an empty schedule returns `False`
and changes nothing.  Otherwise it pops the root entry — which, for a
well-formed heap, has minimal priority value among all pending entries
— shrinking the schedule by one; if no runway is `AVAILABLE` it returns
`False` with the popped request dropped (not requeued) and the runways
untouched; if some runway is `AVAILABLE`, the first such runway in list
order becomes `OCCUPIED` with the request's flight and operation window
recorded, and `True` is returned. -/
theorem C6_process_next_flight (a : Agent.Airport) :
    (a.flight_scheduler.schedule_heap = [] →
      a.process_next_flight = (a, false))
    ∧ (∀ e h2,
        heappop Agent.entryVal a.flight_scheduler.schedule_heap = some (e, h2) →
        (HeapInv Agent.entryVal a.flight_scheduler.schedule_heap →
          ∀ e2 ∈ a.flight_scheduler.schedule_heap, e.value ≤ e2.value)
        ∧ h2.length + 1 = a.flight_scheduler.schedule_heap.length
        ∧ ((∀ r ∈ a.runways, r.status ≠ Agent.RunwayStatus.AVAILABLE) →
            a.process_next_flight = ({ a with flight_scheduler := ⟨h2⟩ }, false))
        ∧ (∀ i, i < a.runways.length →
            (a.runways.getD i default).status = Agent.RunwayStatus.AVAILABLE →
            (∀ j, j < i →
              (a.runways.getD j default).status ≠ Agent.RunwayStatus.AVAILABLE) →
            a.process_next_flight =
              ({ a with
                  flight_scheduler := ⟨h2⟩,
                  runways := a.runways.set i
                    { a.runways.getD i default with
                        status := Agent.RunwayStatus.OCCUPIED,
                        current_flight := some e.flight,
                        operation_start_time := some e.slot_info.start_time,
                        operation_end_time := some e.slot_info.end_time } },
                true))) := by
  constructor
  · intro h
    unfold Agent.Airport.process_next_flight Agent.FlightScheduler.get_next_flight
    rw [h]
    rfl
  · intro e h2 hpop
    refine ⟨fun hinv => heappop_min Agent.entryVal hinv hpop,
      heappop_length Agent.entryVal hpop, ?_, ?_⟩
    · intro hnone
      rw [Agent.process_next_flight_eq a e h2 hpop,
        Agent.assignFirstAvailable_none a.runways e.flight
          e.slot_info.start_time e.slot_info.end_time hnone]
    · intro i hi havail hfirst
      rw [Agent.process_next_flight_eq a e h2 hpop,
        Agent.assignFirstAvailable_at a.runways e.flight
          e.slot_info.start_time e.slot_info.end_time i hi havail hfirst]

/-- C6 witness: the theorem applied to a one-runway airport with one
pending landing: the runway is reserved and `True` returned. -/
theorem C6_witness :
    Agent.Airport.process_next_flight Agent.exampleAirport =
      ({ Agent.exampleAirport with
          flight_scheduler := ⟨[]⟩,
          runways := [{ Agent.runwayR1 with
              status := Agent.RunwayStatus.OCCUPIED,
              current_flight := some Agent.flightF1,
              operation_start_time := some 1000,
              operation_end_time := some 1300 }] }, true) := by
  have h := ((C6_process_next_flight Agent.exampleAirport).2
    (Agent.tieEntry Agent.flightF1) [] (by decide)).2.2.2 0 (by decide)
    (by decide) (fun j hj => absurd hj (Nat.not_lt_zero j))
  exact h.trans (by decide)

/-! ### Simulator lemmas: heading normalisation and stage projections -/

namespace SimApp

theorem pymod_nonneg (a m : ℚ) (hm : 0 < m) : 0 ≤ pymod a m := by
  unfold pymod
  have h1 : ((⌊a / m⌋ : ℚ)) ≤ a / m := Int.floor_le _
  have h2 : m * ((⌊a / m⌋ : ℚ)) ≤ m * (a / m) :=
    mul_le_mul_of_nonneg_left h1 (le_of_lt hm)
  have h3 : m * (a / m) = a := by
    field_simp
  linarith

theorem pymod_lt (a m : ℚ) (hm : 0 < m) : pymod a m < m := by
  unfold pymod
  have h1 : a / m < ((⌊a / m⌋ : ℚ)) + 1 := Int.lt_floor_add_one _
  have h2 : a < (((⌊a / m⌋ : ℚ)) + 1) * m := (div_lt_iff₀ hm).mp h1
  nlinarith

theorem navStage_eq (f : Flight) (trig : Trig) :
    ∃ th2, navStage f trig = { f with target_heading := th2 } := by
  obtain ⟨cs, ft, atp, pos, alt, sp, hd, ta, ts, th, tw, st, cl, ct, pw, cw,
    ch, gt, ca, cd, cn, cnt⟩ := f
  unfold navStage Flight.navigate_to_waypoint
  rcases tw with _ | w
  · exact ⟨th, rfl⟩
  · dsimp only
    rcases hl : WAYPOINTS.lookup w with _ | wp
    · exact ⟨th, rfl⟩
    · exact ⟨_, rfl⟩

theorem checkWaypointStep_eq (f : Flight) (nw : String × Waypoint) :
    ∃ pw tw th, checkWaypointStep f nw =
      { f with
          passed_waypoints := pw, target_waypoint := tw,
          target_heading := th } := by
  unfold checkWaypointStep
  dsimp only
  split_ifs <;> exact ⟨_, _, _, rfl⟩

theorem foldWaypoints_eq (ws : List (String × Waypoint)) (f : Flight) :
    ∃ pw tw th, ws.foldl checkWaypointStep f =
      { f with
          passed_waypoints := pw, target_waypoint := tw,
          target_heading := th } := by
  induction ws generalizing f with
  | nil => exact ⟨_, _, _, rfl⟩
  | cons nw rest ih =>
    obtain ⟨pw1, tw1, th1, h1⟩ := checkWaypointStep_eq f nw
    obtain ⟨pw2, tw2, th2, h2⟩ := ih (checkWaypointStep f nw)
    refine ⟨pw2, tw2, th2, ?_⟩
    rw [List.foldl_cons, h2, h1]

theorem check_waypoint_passage_eq (f : Flight) :
    ∃ pw tw th, f.check_waypoint_passage =
      { f with
          passed_waypoints := pw, target_waypoint := tw,
          target_heading := th } :=
  foldWaypoints_eq WAYPOINTS f

theorem update_status_eq (f : Flight) (now : ℚ)
    (h : f.status ≠ FlightStatus.LANDING) :
    ∃ st ts ta th tw cw ca, f.update_status now =
      { f with
          status := st, target_speed := ts, target_altitude := ta,
          target_heading := th, target_waypoint := tw,
          current_waypoint := cw, completed_at := ca } := by
  unfold Flight.update_status
  -- `split_ifs` resolves the `status = LANDING` test via `h`, so the
  -- touchdown snap branch (which also writes altitude and speed) is
  -- unreachable here
  split_ifs <;> exact ⟨_, _, _, _, _, _, _, rfl⟩

theorem update_status_heading (f : Flight) (now : ℚ) :
    (f.update_status now).heading = f.heading := by
  unfold Flight.update_status
  split_ifs <;> rfl

theorem update_status_passed (f : Flight) (now : ℚ) :
    (f.update_status now).passed_waypoints = f.passed_waypoints := by
  unfold Flight.update_status
  split_ifs <;> rfl

theorem update_status_speed (f : Flight) (now : ℚ)
    (h : f.status ≠ FlightStatus.LANDING) :
    (f.update_status now).speed = f.speed := by
  obtain ⟨st, ts, ta, th, tw, cw, ca, he⟩ := update_status_eq f now h
  rw [he]

theorem update_status_altitude (f : Flight) (now : ℚ)
    (h : f.status ≠ FlightStatus.LANDING) :
    (f.update_status now).altitude = f.altitude := by
  obtain ⟨st, ts, ta, th, tw, cw, ca, he⟩ := update_status_eq f now h
  rw [he]

theorem integrateAltitude_speed (f : Flight) (dt : ℚ) :
    (integrateAltitude f dt).speed = f.speed := by
  unfold integrateAltitude
  split_ifs <;> rfl

theorem integrateAltitude_heading (f : Flight) (dt : ℚ) :
    (integrateAltitude f dt).heading = f.heading := by
  unfold integrateAltitude
  split_ifs <;> rfl

theorem integrateAltitude_only (f : Flight) (dt : ℚ) :
    ∃ alt, integrateAltitude f dt = { f with altitude := alt } := by
  unfold integrateAltitude
  split_ifs <;> exact ⟨_, rfl⟩

theorem integrateAltitude_altitude (f : Flight) (dt : ℚ) :
    (integrateAltitude f dt).altitude =
      if |f.altitude - f.target_altitude| > 10 then
        max 0 (if f.altitude < f.target_altitude then
          f.altitude + f.characteristics.climb_rate * (dt / 60)
        else
          f.altitude - f.characteristics.descent_rate * (dt / 60))
      else f.altitude := by
  unfold integrateAltitude
  split_ifs <;> rfl

theorem integrateSpeed_only (f : Flight) (dt : ℚ) :
    ∃ sp, integrateSpeed f dt = { f with speed := sp } := by
  unfold integrateSpeed
  split_ifs <;> exact ⟨_, rfl⟩

theorem integrateSpeed_speed (f : Flight) (dt : ℚ) :
    (integrateSpeed f dt).speed =
      if |f.speed - f.target_speed| > 1 then
        (if f.speed < f.target_speed then min (f.speed + 5 * dt) f.target_speed
         else max (f.speed - 5 * dt) f.target_speed)
      else f.speed := by
  unfold integrateSpeed
  split_ifs <;> rfl

theorem integrateHeading_only (f : Flight) (dt : ℚ) :
    ∃ hd, integrateHeading f dt = { f with heading := hd } := by
  unfold integrateHeading
  dsimp only
  split_ifs <;> exact ⟨_, rfl⟩

theorem integrateHeading_heading (f : Flight) (dt : ℚ) :
    (integrateHeading f dt).heading = f.heading ∨
    ∃ x, (integrateHeading f dt).heading = pymod x 360 := by
  unfold integrateHeading
  dsimp only
  split_ifs
  · exact Or.inr ⟨_, rfl⟩
  · exact Or.inr ⟨_, rfl⟩
  · exact Or.inl rfl

theorem integratePosition_only (f : Flight) (dt : ℚ) (trig : Trig) :
    ∃ p, integratePosition f dt trig = { f with position := p } := by
  exact ⟨_, rfl⟩

/-! ### Frame lemmas: which fields each stage leaves unchanged -/

theorem navStage_heading (f : Flight) (trig : Trig) :
    (navStage f trig).heading = f.heading := by
  obtain ⟨th, h⟩ := navStage_eq f trig
  rw [h]

theorem navStage_speed (f : Flight) (trig : Trig) :
    (navStage f trig).speed = f.speed := by
  obtain ⟨th, h⟩ := navStage_eq f trig
  rw [h]

theorem navStage_target_speed (f : Flight) (trig : Trig) :
    (navStage f trig).target_speed = f.target_speed := by
  obtain ⟨th, h⟩ := navStage_eq f trig
  rw [h]

theorem navStage_altitude (f : Flight) (trig : Trig) :
    (navStage f trig).altitude = f.altitude := by
  obtain ⟨th, h⟩ := navStage_eq f trig
  rw [h]

theorem navStage_target_altitude (f : Flight) (trig : Trig) :
    (navStage f trig).target_altitude = f.target_altitude := by
  obtain ⟨th, h⟩ := navStage_eq f trig
  rw [h]

theorem navStage_status (f : Flight) (trig : Trig) :
    (navStage f trig).status = f.status := by
  obtain ⟨th, h⟩ := navStage_eq f trig
  rw [h]

theorem navStage_passed (f : Flight) (trig : Trig) :
    (navStage f trig).passed_waypoints = f.passed_waypoints := by
  obtain ⟨th, h⟩ := navStage_eq f trig
  rw [h]

theorem navStage_characteristics (f : Flight) (trig : Trig) :
    (navStage f trig).characteristics = f.characteristics := by
  obtain ⟨th, h⟩ := navStage_eq f trig
  rw [h]

theorem integrateAltitude_target_speed (f : Flight) (dt : ℚ) :
    (integrateAltitude f dt).target_speed = f.target_speed := by
  obtain ⟨a, h⟩ := integrateAltitude_only f dt
  rw [h]

theorem integrateAltitude_target_altitude (f : Flight) (dt : ℚ) :
    (integrateAltitude f dt).target_altitude = f.target_altitude := by
  obtain ⟨a, h⟩ := integrateAltitude_only f dt
  rw [h]

theorem integrateAltitude_status (f : Flight) (dt : ℚ) :
    (integrateAltitude f dt).status = f.status := by
  obtain ⟨a, h⟩ := integrateAltitude_only f dt
  rw [h]

theorem integrateAltitude_passed (f : Flight) (dt : ℚ) :
    (integrateAltitude f dt).passed_waypoints = f.passed_waypoints := by
  obtain ⟨a, h⟩ := integrateAltitude_only f dt
  rw [h]

theorem integrateSpeed_heading (f : Flight) (dt : ℚ) :
    (integrateSpeed f dt).heading = f.heading := by
  obtain ⟨sp, h⟩ := integrateSpeed_only f dt
  rw [h]

theorem integrateSpeed_altitude (f : Flight) (dt : ℚ) :
    (integrateSpeed f dt).altitude = f.altitude := by
  obtain ⟨sp, h⟩ := integrateSpeed_only f dt
  rw [h]

theorem integrateSpeed_status (f : Flight) (dt : ℚ) :
    (integrateSpeed f dt).status = f.status := by
  obtain ⟨sp, h⟩ := integrateSpeed_only f dt
  rw [h]

theorem integrateSpeed_passed (f : Flight) (dt : ℚ) :
    (integrateSpeed f dt).passed_waypoints = f.passed_waypoints := by
  obtain ⟨sp, h⟩ := integrateSpeed_only f dt
  rw [h]

theorem integrateHeading_speed (f : Flight) (dt : ℚ) :
    (integrateHeading f dt).speed = f.speed := by
  obtain ⟨hd, h⟩ := integrateHeading_only f dt
  rw [h]

theorem integrateHeading_altitude (f : Flight) (dt : ℚ) :
    (integrateHeading f dt).altitude = f.altitude := by
  obtain ⟨hd, h⟩ := integrateHeading_only f dt
  rw [h]

theorem integrateHeading_status (f : Flight) (dt : ℚ) :
    (integrateHeading f dt).status = f.status := by
  obtain ⟨hd, h⟩ := integrateHeading_only f dt
  rw [h]

theorem integrateHeading_passed (f : Flight) (dt : ℚ) :
    (integrateHeading f dt).passed_waypoints = f.passed_waypoints := by
  obtain ⟨hd, h⟩ := integrateHeading_only f dt
  rw [h]

theorem integratePosition_heading (f : Flight) (dt : ℚ) (trig : Trig) :
    (integratePosition f dt trig).heading = f.heading := rfl

theorem integratePosition_speed (f : Flight) (dt : ℚ) (trig : Trig) :
    (integratePosition f dt trig).speed = f.speed := rfl

theorem integratePosition_altitude (f : Flight) (dt : ℚ) (trig : Trig) :
    (integratePosition f dt trig).altitude = f.altitude := rfl

theorem integratePosition_status (f : Flight) (dt : ℚ) (trig : Trig) :
    (integratePosition f dt trig).status = f.status := rfl

theorem integratePosition_passed (f : Flight) (dt : ℚ) (trig : Trig) :
    (integratePosition f dt trig).passed_waypoints = f.passed_waypoints := rfl

theorem check_waypoint_passage_heading (f : Flight) :
    f.check_waypoint_passage.heading = f.heading := by
  obtain ⟨pw, tw, th, h⟩ := check_waypoint_passage_eq f
  rw [h]

theorem check_waypoint_passage_speed (f : Flight) :
    f.check_waypoint_passage.speed = f.speed := by
  obtain ⟨pw, tw, th, h⟩ := check_waypoint_passage_eq f
  rw [h]

theorem check_waypoint_passage_altitude (f : Flight) :
    f.check_waypoint_passage.altitude = f.altitude := by
  obtain ⟨pw, tw, th, h⟩ := check_waypoint_passage_eq f
  rw [h]

theorem check_waypoint_passage_status (f : Flight) :
    f.check_waypoint_passage.status = f.status := by
  obtain ⟨pw, tw, th, h⟩ := check_waypoint_passage_eq f
  rw [h]

/-! ### The landing-rule check against the spec's rule set -/

theorem check_landing_rules_of_hold (f : Flight) (h : LandingRulesHold f) :
    f.check_landing_rules = (true, none) := by
  obtain ⟨h1, h2, h3, h4, h5⟩ := h
  unfold Flight.check_landing_rules
  split_ifs with g1 g2 g3 g4 g5
  · exact absurd g1 (not_lt.mpr h1)
  · exact absurd g2 (not_lt.mpr h2)
  · exact absurd g3 (not_lt.mpr h3)
  · exact absurd g4 (not_lt.mpr h4)
  · rfl
  · exact absurd
      (show LANDING_RULES.required_waypoint ∈ f.passed_waypoints from h5) g5

theorem check_landing_rules_of_not_hold (f : Flight)
    (h : ¬ LandingRulesHold f) :
    ∃ reason, f.check_landing_rules = (false, some reason) := by
  unfold Flight.check_landing_rules
  split_ifs with g1 g2 g3 g4 g5
  · exact ⟨_, rfl⟩
  · exact ⟨_, rfl⟩
  · exact ⟨_, rfl⟩
  · exact ⟨_, rfl⟩
  · exact absurd ⟨not_lt.mp g1, not_lt.mp g2, not_lt.mp g3, not_lt.mp g4, g5⟩ h
  · exact ⟨_, rfl⟩

/-- A concrete flight meeting every landing rule. -/
theorem c1flight_rules_hold : LandingRulesHold c1flight := by
  refine ⟨by decide, by decide, by decide, ?_, by decide⟩
  show (3 : ℚ) ^ 2 + (4 : ℚ) ^ 2 ≤ 18 ^ 2
  norm_num

/-- C1: with the pure `clear_to_land=true` command, clearance is granted
iff the four landing rules hold; a grant sets `cleared_to_land`, clears
the denial reason and routes the flight to the runway (target waypoint
`RUNWAY`, target altitude the field elevation, target speed the type's
approach speed) with a success result; a denial stores the first failing
rule's reason on the flight, reports it with `success = false`, and
leaves every other field — all kinematic and target state and
`cleared_to_land` — unchanged. -/
theorem C1_clear_to_land (f : Flight) :
    ((f.apply_command ctlCommand).2.success = true ↔ LandingRulesHold f)
    ∧ (LandingRulesHold f →
        f.apply_command ctlCommand =
          ({ f with
              cleared_to_land := true, clearance_denial_reason := none,
              target_waypoint := some "RUNWAY",
              current_waypoint := some "RUNWAY",
              target_altitude := airportElevation,
              target_speed := f.characteristics.approach_speed },
            ⟨true, CmdMsg.commandAccepted⟩))
    ∧ (¬ LandingRulesHold f →
        ∃ reason, f.check_landing_rules = (false, some reason)
          ∧ f.apply_command ctlCommand =
            ({ f with clearance_denial_reason := some reason },
              ⟨false, CmdMsg.cannotClearToLand (some reason)⟩)) := by
  by_cases h : LandingRulesHold f
  · have hc := check_landing_rules_of_hold f h
    have h2 : f.apply_command ctlCommand =
        ({ f with
            cleared_to_land := true, clearance_denial_reason := none,
            target_waypoint := some "RUNWAY",
            current_waypoint := some "RUNWAY",
            target_altitude := airportElevation,
            target_speed := f.characteristics.approach_speed },
          ⟨true, CmdMsg.commandAccepted⟩) := by
      show applyClearToLandCmd f ctlCommand ⟨true, CmdMsg.commandAccepted⟩ = _
      unfold applyClearToLandCmd
      rw [hc]
      rfl
    exact ⟨by rw [h2]; exact iff_of_true rfl h, fun _ => h2,
      fun hn => absurd h hn⟩
  · obtain ⟨reason, hc⟩ := check_landing_rules_of_not_hold f h
    have h2 : f.apply_command ctlCommand =
        ({ f with clearance_denial_reason := some reason },
          ⟨false, CmdMsg.cannotClearToLand (some reason)⟩) := by
      show applyClearToLandCmd f ctlCommand ⟨true, CmdMsg.commandAccepted⟩ = _
      unfold applyClearToLandCmd
      rw [hc]
      rfl
    exact ⟨by rw [h2]; exact iff_of_false Bool.false_ne_true h,
      fun hh => absurd hh h, fun _ => ⟨reason, hc, h2⟩⟩

/-- C1 witness: an arrival at 1400 ft, 150 kt, 5 nm out with `FINAL`
passed is granted clearance and routed to the runway. -/
theorem C1_witness :
    c1flight.apply_command ctlCommand =
      ({ c1flight with
          cleared_to_land := true, clearance_denial_reason := none,
          target_waypoint := some "RUNWAY",
          current_waypoint := some "RUNWAY",
          target_altitude := airportElevation,
          target_speed := c1flight.characteristics.approach_speed },
        ⟨true, CmdMsg.commandAccepted⟩) :=
  (C1_clear_to_land c1flight).2.1 c1flight_rules_hold

/-- C10: with the failure flag set, `command_flight` fails with
"Simulation has failed" for every callsign and command and the state is
untouched, and both spawns return `none` without adding a flight. -/
theorem C10_failed_interface_inert (s : ATCSimulator) (h : s.failed = true)
    (callsign : String) (command : FlightCommand) (r : SpawnChoice)
    (trig : Trig) :
    s.command_flight callsign command =
      (s, ⟨false, CmdMsg.simulationHasFailed⟩)
    ∧ s.spawn_arrival r trig = (s, none)
    ∧ s.spawn_departure r = (s, none) := by
  unfold ATCSimulator.command_flight ATCSimulator.spawn_arrival
    ATCSimulator.spawn_departure
  rw [h]
  exact ⟨if_pos rfl, if_pos rfl, if_pos rfl⟩

/-- C10 witness: the failed simulator rejects a command and both spawns. -/
theorem C10_witness :
    failedSim.command_flight "UAL100" { altitude := some 5000 } =
      (failedSim, ⟨false, CmdMsg.simulationHasFailed⟩)
    ∧ failedSim.spawn_arrival spawnChoice0 trivialTrig = (failedSim, none)
    ∧ failedSim.spawn_departure spawnChoice0 = (failedSim, none) :=
  C10_failed_interface_inert failedSim rfl "UAL100" { altitude := some 5000 }
    spawnChoice0 trivialTrig

/-! ### Shapes of the `apply_command` stages -/

theorem applyAltitudeCmd_eq (f : Flight) (cmd : FlightCommand) :
    ∃ ta, applyAltitudeCmd f cmd = { f with target_altitude := ta } := by
  obtain ⟨alt, sp, hd, wp, ctl, cft⟩ := cmd
  unfold applyAltitudeCmd
  rcases alt with _ | a
  · exact ⟨f.target_altitude, rfl⟩
  · exact ⟨a, rfl⟩

theorem applySpeedCmd_eq (f : Flight) (cmd : FlightCommand) :
    ∃ ts, applySpeedCmd f cmd = { f with target_speed := ts } := by
  obtain ⟨alt, sp, hd, wp, ctl, cft⟩ := cmd
  unfold applySpeedCmd
  rcases sp with _ | s
  · exact ⟨f.target_speed, rfl⟩
  · exact ⟨s, rfl⟩

theorem applyHeadingCmd_eq (f : Flight) (cmd : FlightCommand) :
    ∃ th tw, applyHeadingCmd f cmd =
      { f with target_heading := th, target_waypoint := tw } := by
  obtain ⟨alt, sp, hd, wp, ctl, cft⟩ := cmd
  unfold applyHeadingCmd
  rcases hd with _ | x
  · exact ⟨f.target_heading, f.target_waypoint, rfl⟩
  · exact ⟨pymod x 360, none, rfl⟩

theorem applyWaypointCmd_eq (f : Flight) (cmd : FlightCommand)
    (r : CmdResult) :
    ∃ tw cw res, applyWaypointCmd f cmd r =
      ({ f with target_waypoint := tw, current_waypoint := cw }, res) := by
  obtain ⟨alt, sp, hd, wp, ctl, cft⟩ := cmd
  unfold applyWaypointCmd
  rcases wp with _ | w
  · exact ⟨f.target_waypoint, f.current_waypoint, r, rfl⟩
  · dsimp only
    split_ifs
    · exact ⟨some w, some w, r, rfl⟩
    · exact ⟨f.target_waypoint, f.current_waypoint, _, rfl⟩

theorem applyTakeoffCmd_eq (f : Flight) (cmd : FlightCommand) :
    ∃ cft2, applyTakeoffCmd f cmd = { f with cleared_for_takeoff := cft2 } := by
  obtain ⟨alt, sp, hd, wp, ctl, cft⟩ := cmd
  unfold applyTakeoffCmd
  rcases cft with _ | b
  · exact ⟨f.cleared_for_takeoff, rfl⟩
  · exact ⟨b, rfl⟩

theorem applyClearToLandCmd_eq (f : Flight) (cmd : FlightCommand)
    (r : CmdResult) :
    ∃ cl cd tw cw ta ts res, applyClearToLandCmd f cmd r =
      ({ f with
          cleared_to_land := cl, clearance_denial_reason := cd,
          target_waypoint := tw, current_waypoint := cw,
          target_altitude := ta, target_speed := ts }, res) := by
  obtain ⟨alt, sp, hd, wp, ctl, cft⟩ := cmd
  unfold applyClearToLandCmd
  rcases ctl with _ | b
  · exact ⟨f.cleared_to_land, f.clearance_denial_reason, f.target_waypoint,
      f.current_waypoint, f.target_altitude, f.target_speed, r, rfl⟩
  · rcases b
    · exact ⟨false, none, f.target_waypoint, f.current_waypoint,
        f.target_altitude, f.target_speed, r, rfl⟩
    · rcases hr : f.check_landing_rules with ⟨s, reason⟩
      rcases s
      · exact ⟨f.cleared_to_land, reason, f.target_waypoint,
          f.current_waypoint, f.target_altitude, f.target_speed, _, rfl⟩
      · exact ⟨true, none, some "RUNWAY", some "RUNWAY", airportElevation,
          f.characteristics.approach_speed, r, rfl⟩

theorem apply_command_eq (f : Flight) (cmd : FlightCommand) :
    ∃ ta ts th tw cw cl cd cft res, f.apply_command cmd =
      ({ f with
          target_altitude := ta, target_speed := ts, target_heading := th,
          target_waypoint := tw, current_waypoint := cw,
          cleared_to_land := cl, clearance_denial_reason := cd,
          cleared_for_takeoff := cft }, res) := by
  unfold Flight.apply_command
  dsimp only
  obtain ⟨ta1, h1⟩ := applyAltitudeCmd_eq f cmd
  rw [h1]
  obtain ⟨ts2, h2⟩ := applySpeedCmd_eq { f with target_altitude := ta1 } cmd
  rw [h2]
  obtain ⟨th3, tw3, h3⟩ := applyHeadingCmd_eq
    { { f with target_altitude := ta1 } with target_speed := ts2 } cmd
  rw [h3]
  obtain ⟨tw4, cw4, res4, h4⟩ := applyWaypointCmd_eq
    { { { f with target_altitude := ta1 } with target_speed := ts2 } with
        target_heading := th3, target_waypoint := tw3 }
    cmd ⟨true, CmdMsg.commandAccepted⟩
  rw [h4]
  dsimp only
  obtain ⟨cft5, h5⟩ := applyTakeoffCmd_eq
    { { { { f with target_altitude := ta1 } with target_speed := ts2 } with
        target_heading := th3, target_waypoint := tw3 } with
        target_waypoint := tw4, current_waypoint := cw4 }
    cmd
  rw [h5]
  obtain ⟨cl6, cd6, tw6, cw6, ta6, ts6, res6, h6⟩ := applyClearToLandCmd_eq
    { { { { { f with target_altitude := ta1 } with target_speed := ts2 } with
        target_heading := th3, target_waypoint := tw3 } with
        target_waypoint := tw4, current_waypoint := cw4 } with
        cleared_for_takeoff := cft5 }
    cmd res4
  rw [h6]
  exact ⟨_, _, _, _, _, _, _, _, _, rfl⟩

theorem apply_command_heading (f : Flight) (cmd : FlightCommand) :
    (f.apply_command cmd).1.heading = f.heading := by
  obtain ⟨ta, ts, th, tw, cw, cl, cd, cft, res, h⟩ := apply_command_eq f cmd
  rw [h]

theorem apply_command_passed (f : Flight) (cmd : FlightCommand) :
    (f.apply_command cmd).1.passed_waypoints = f.passed_waypoints := by
  obtain ⟨ta, ts, th, tw, cw, cl, cd, cft, res, h⟩ := apply_command_eq f cmd
  rw [h]

/-! ### The `clear_to_land` stage against a varying prior result -/

theorem applyClearToLandCmd_fst (f : Flight) (cmd : FlightCommand)
    (r1 r2 : CmdResult) :
    (applyClearToLandCmd f cmd r1).1 = (applyClearToLandCmd f cmd r2).1 := by
  obtain ⟨alt, sp, hd, wp, ctl, cft⟩ := cmd
  unfold applyClearToLandCmd
  rcases ctl with _ | b
  · rfl
  · rcases b
    · rfl
    · rcases hr : f.check_landing_rules with ⟨s, reason⟩
      rcases s
      · rfl
      · rfl

theorem applyClearToLandCmd_snd_ne (f : Flight) (cmd : FlightCommand)
    (r : CmdResult) (h : cmd.clear_to_land ≠ some true) :
    (applyClearToLandCmd f cmd r).2 = r := by
  obtain ⟨alt, sp, hd, wp, ctl, cft⟩ := cmd
  unfold applyClearToLandCmd
  rcases ctl with _ | b
  · rfl
  · rcases b
    · rfl
    · exact absurd rfl h

theorem applyClearToLandCmd_snd (f : Flight) (cmd : FlightCommand)
    (r : CmdResult) :
    (applyClearToLandCmd f cmd r).2 = r
    ∨ (cmd.clear_to_land = some true ∧ ∃ reason,
        (applyClearToLandCmd f cmd r).2 =
          ⟨false, CmdMsg.cannotClearToLand reason⟩) := by
  obtain ⟨alt, sp, hd, wp, ctl, cft⟩ := cmd
  unfold applyClearToLandCmd
  rcases ctl with _ | b
  · exact Or.inl rfl
  · rcases b
    · exact Or.inl rfl
    · rcases hr : f.check_landing_rules with ⟨s, reason⟩
      rcases s
      · exact Or.inr ⟨rfl, reason, rfl⟩
      · exact Or.inl rfl

/-- C9 (amended): a command naming an unregistered waypoint leaves the
flight exactly as the same command without its waypoint field would (the
offending field mutates nothing; every other field keeps its own
semantics), and the returned result always has `success = false`.  The
result's message is the unknown-waypoint report unless the command also
carries `clear_to_land=true` and the landing rules deny it, in which
case the denial overwrites the unknown-waypoint message. -/
theorem C9_unknown_waypoint (f : Flight) (cmd : FlightCommand) (w : String)
    (hw : cmd.waypoint = some w) (hreg : WAYPOINTS.lookup w = none) :
    (f.apply_command cmd).1 = (f.apply_command { cmd with waypoint := none }).1
    ∧ (f.apply_command cmd).2.success = false
    ∧ (cmd.clear_to_land ≠ some true →
        (f.apply_command cmd).2.message = CmdMsg.unknownWaypoint w)
    ∧ ((f.apply_command cmd).2.message = CmdMsg.unknownWaypoint w
        ∨ ∃ reason, cmd.clear_to_land = some true ∧
            (f.apply_command cmd).2.message =
              CmdMsg.cannotClearToLand reason) := by
  obtain ⟨alt, sp, hd, wp, ctl, cft⟩ := cmd
  dsimp only at hw ⊢
  subst hw
  set T := applyTakeoffCmd
      (applyHeadingCmd
        (applySpeedCmd (applyAltitudeCmd f ⟨alt, sp, hd, some w, ctl, cft⟩)
          ⟨alt, sp, hd, some w, ctl, cft⟩)
        ⟨alt, sp, hd, some w, ctl, cft⟩)
      ⟨alt, sp, hd, some w, ctl, cft⟩ with hT
  have key1 : Flight.apply_command f ⟨alt, sp, hd, some w, ctl, cft⟩ =
      applyClearToLandCmd T ⟨alt, sp, hd, some w, ctl, cft⟩
        ⟨false, CmdMsg.unknownWaypoint w⟩ := by
    rw [hT]
    unfold Flight.apply_command
    dsimp only
    unfold applyWaypointCmd
    dsimp only
    rw [hreg]
    rw [if_neg (by simp : ¬((none : Option Waypoint).isSome = true))]
  have key2 : Flight.apply_command f ⟨alt, sp, hd, none, ctl, cft⟩ =
      applyClearToLandCmd T ⟨alt, sp, hd, none, ctl, cft⟩
        ⟨true, CmdMsg.commandAccepted⟩ := by
    rw [hT]
    unfold Flight.apply_command applyWaypointCmd applyAltitudeCmd
      applySpeedCmd applyHeadingCmd applyTakeoffCmd
    dsimp only
  refine ⟨?_, ?_, ?_, ?_⟩
  · rw [key1, key2]
    exact applyClearToLandCmd_fst T ⟨alt, sp, hd, some w, ctl, cft⟩
      ⟨false, CmdMsg.unknownWaypoint w⟩ ⟨true, CmdMsg.commandAccepted⟩
  · rw [key1]
    rcases applyClearToLandCmd_snd T ⟨alt, sp, hd, some w, ctl, cft⟩
        ⟨false, CmdMsg.unknownWaypoint w⟩ with hres | ⟨hctl, reason, hres⟩ <;>
      rw [hres]
  · intro hne
    rw [key1, applyClearToLandCmd_snd_ne T ⟨alt, sp, hd, some w, ctl, cft⟩
      ⟨false, CmdMsg.unknownWaypoint w⟩ hne]
  · rcases applyClearToLandCmd_snd T ⟨alt, sp, hd, some w, ctl, cft⟩
        ⟨false, CmdMsg.unknownWaypoint w⟩ with hres | ⟨hctl, reason, hres⟩
    · exact Or.inl (by rw [key1, hres])
    · exact Or.inr ⟨reason, hctl, by rw [key1, hres]⟩

/-- C9 witness: an unknown-waypoint command with an altitude field: the
state equals that of the altitude-only command, the altitude is still
applied, and the result reports the unknown waypoint with failure. -/
theorem C9_witness :
    (c9flight.apply_command c9wcmd).1 =
      (c9flight.apply_command { c9wcmd with waypoint := none }).1
    ∧ (c9flight.apply_command c9wcmd).2.success = false
    ∧ (c9flight.apply_command c9wcmd).2.message =
        CmdMsg.unknownWaypoint "NOPE"
    ∧ (c9flight.apply_command c9wcmd).1.target_altitude = 4000 := by
  have h := C9_unknown_waypoint c9flight c9wcmd "NOPE" rfl (by decide)
  exact ⟨h.1, h.2.1, h.2.2.1 (by decide), by decide⟩

/-- C9 counterexample: the claim's "message reports the unknown
waypoint" fails when the same command carries a denied
`clear_to_land=true`: the denial reason overwrites the message. -/
theorem C9_counterexample :
    c9cmd.waypoint = some "XYZAB"
    ∧ WAYPOINTS.lookup "XYZAB" = none
    ∧ (c9flight.apply_command c9cmd).2 =
        ⟨false, CmdMsg.cannotClearToLand
          (some (LandingDenial.altitudeExceedsMax 5000))⟩
    ∧ (c9flight.apply_command c9cmd).2.message ≠
        CmdMsg.unknownWaypoint "XYZAB" := by
  refine ⟨rfl, by decide, by decide, by decide⟩

/-! ### Heading bounds through the update pipeline (C7) -/

theorem update_heading_range (f : Flight) (dt now : ℚ) (trig : Trig)
    (h0 : 0 ≤ f.heading) (h1 : f.heading < 360) :
    0 ≤ (f.update dt now trig).heading ∧
      (f.update dt now trig).heading < 360 := by
  unfold Flight.update
  by_cases hterm : f.status = FlightStatus.LANDED ∨
      f.status = FlightStatus.DEPARTED ∨ f.status = FlightStatus.AT_GATE
  · rw [if_pos hterm]
    dsimp only
    split_ifs <;> exact ⟨h0, h1⟩
  · rw [if_neg hterm]
    rw [update_status_heading, check_waypoint_passage_heading,
      integratePosition_heading]
    rcases integrateHeading_heading
        (integrateSpeed (integrateAltitude (navStage f trig) dt) dt) dt with
      hc | ⟨x, hc⟩
    · rw [hc, integrateSpeed_heading, integrateAltitude_heading,
        navStage_heading]
      exact ⟨h0, h1⟩
    · rw [hc]
      exact ⟨pymod_nonneg x 360 (by norm_num), pymod_lt x 360 (by norm_num)⟩

theorem spawn_arrival_heading (s : ATCSimulator) (r : SpawnChoice)
    (trig : Trig) (fl : Flight) (h : (s.spawn_arrival r trig).2 = some fl) :
    0 ≤ fl.heading ∧ fl.heading < 360 := by
  unfold ATCSimulator.spawn_arrival at h
  by_cases hf : s.failed = true
  · rw [if_pos hf] at h
    simp at h
  · rw [if_neg hf] at h
    dsimp only at h
    have he := Option.some.inj h
    subst he
    exact ⟨pymod_nonneg _ 360 (by norm_num), pymod_lt _ 360 (by norm_num)⟩

theorem spawn_departure_heading (s : ATCSimulator) (r : SpawnChoice)
    (fl : Flight) (h : (s.spawn_departure r).2 = some fl) :
    0 ≤ fl.heading ∧ fl.heading < 360 := by
  unfold ATCSimulator.spawn_departure at h
  by_cases hf : s.failed = true
  · rw [if_pos hf] at h
    simp at h
  · rw [if_neg hf] at h
    dsimp only at h
    have he := Option.some.inj h
    subst he
    exact ⟨by norm_num [mkFlight, airportRunwayHeading],
      by norm_num [mkFlight, airportRunwayHeading]⟩

/-- C7: the heading invariant `0 ≤ heading < 360`: it is preserved by
every per-tick `Flight.update` (the turn integrator normalises mod 360
and every other stage leaves heading alone), preserved by every
`apply_command` (which never writes `heading`, only `target_heading`,
itself normalised mod 360), and holds for the heading assigned by
`spawn_arrival` (bearing normalised mod 360) and `spawn_departure` (the
runway heading 340). -/
theorem C7_heading_range (f : Flight) (command : FlightCommand)
    (dt now : ℚ) (trig : Trig) (s : ATCSimulator) (r : SpawnChoice)
    (h0 : 0 ≤ f.heading) (h1 : f.heading < 360) :
    (0 ≤ (f.update dt now trig).heading ∧
      (f.update dt now trig).heading < 360)
    ∧ (0 ≤ (f.apply_command command).1.heading ∧
        (f.apply_command command).1.heading < 360)
    ∧ (∀ fl, (s.spawn_arrival r trig).2 = some fl →
        0 ≤ fl.heading ∧ fl.heading < 360)
    ∧ (∀ fl, (s.spawn_departure r).2 = some fl →
        0 ≤ fl.heading ∧ fl.heading < 360) := by
  refine ⟨update_heading_range f dt now trig h0 h1, ?_,
    fun fl hfl => spawn_arrival_heading s r trig fl hfl,
    fun fl hfl => spawn_departure_heading s r fl hfl⟩
  rw [apply_command_heading]
  exact ⟨h0, h1⟩

/-- C7 witness: a 350°-heading arrival keeps a normalised heading under
a 400° heading command. -/
theorem C7_witness :
    0 ≤ (c7flight.apply_command { heading := some 400 }).1.heading ∧
      (c7flight.apply_command { heading := some 400 }).1.heading < 360 :=
  (C7_heading_range c7flight { heading := some 400 } 1 0 trivialTrig {}
    spawnChoice0 (by decide) (by decide)).2.1

/-! ### Waypoint passage (C8) -/

theorem checkWaypointStep_hit (f : Flight) (nw : String × Waypoint)
    (h : wpHit f nw) :
    (checkWaypointStep f nw).passed_waypoints =
      f.passed_waypoints ++ [nw.1] := by
  obtain ⟨h1, h2⟩ := h
  unfold checkWaypointStep
  dsimp only
  rw [if_neg h1, if_pos h2]
  split_ifs <;> rfl

theorem checkWaypointStep_miss (f : Flight) (nw : String × Waypoint)
    (h : ¬ wpHit f nw) :
    checkWaypointStep f nw = f := by
  unfold checkWaypointStep
  dsimp only
  split_ifs with h1 h2 h3
  · rfl
  · exact absurd ⟨h1, h2⟩ h
  · exact absurd ⟨h1, h2⟩ h
  · rfl

theorem checkWaypointStep_pos (f : Flight) (nw : String × Waypoint) :
    (checkWaypointStep f nw).position = f.position := by
  unfold checkWaypointStep
  dsimp only
  split_ifs <;> rfl

theorem WAYPOINTS_names_nodup : (WAYPOINTS.map Prod.fst).Nodup := by decide

theorem foldWaypoints_passed (ws : List (String × Waypoint)) (f : Flight)
    (hnd : (ws.map Prod.fst).Nodup) :
    ((ws.foldl checkWaypointStep f).passed_waypoints =
      f.passed_waypoints ++
        (ws.filter (fun nw => decide (wpHit f nw))).map Prod.fst)
    ∧ (ws.foldl checkWaypointStep f).position = f.position := by
  induction ws generalizing f with
  | nil => exact ⟨(List.append_nil _).symm, rfl⟩
  | cons nw rest ih =>
    rw [List.map_cons, List.nodup_cons] at hnd
    obtain ⟨hnin, hnd2⟩ := hnd
    rw [List.foldl_cons, List.filter_cons]
    by_cases hw : wpHit f nw
    · rw [if_pos (by simpa using hw)]
      have hstep := checkWaypointStep_hit f nw hw
      have hpos := checkWaypointStep_pos f nw
      obtain ⟨ihp, ihpos⟩ := ih (checkWaypointStep f nw) hnd2
      have hfc : rest.filter
            (fun m => decide (wpHit (checkWaypointStep f nw) m)) =
          rest.filter (fun m => decide (wpHit f m)) := by
        apply List.filter_congr
        intro m hm
        have hne : m.1 ≠ nw.1 := by
          intro he
          refine hnin ?_
          rw [← he]
          exact List.mem_map_of_mem Prod.fst hm
        simp only [decide_eq_decide]
        unfold wpHit
        rw [hstep, hpos]
        simp [List.mem_append, hne]
      constructor
      · rw [ihp, hfc, hstep, List.map_cons, List.append_assoc,
          List.singleton_append]
      · rw [ihpos, hpos]
    · rw [if_neg (by simpa using hw)]
      rw [checkWaypointStep_miss f nw hw]
      exact ih f hnd2

theorem check_waypoint_passage_passed (f : Flight) :
    f.check_waypoint_passage.passed_waypoints =
      f.passed_waypoints ++
        (WAYPOINTS.filter (fun nw => decide (wpHit f nw))).map Prod.fst :=
  (foldWaypoints_passed WAYPOINTS f WAYPOINTS_names_nodup).1

theorem check_waypoint_passage_nodup (f : Flight)
    (hnd : f.passed_waypoints.Nodup) :
    f.check_waypoint_passage.passed_waypoints.Nodup := by
  rw [check_waypoint_passage_passed]
  refine List.Nodup.append hnd ?_ ?_
  · exact List.Nodup.sublist
      ((List.filter_sublist WAYPOINTS).map Prod.fst) WAYPOINTS_names_nodup
  · intro a ha hb
    obtain ⟨nw, hmem, hfst⟩ := List.mem_map.mp hb
    have hf := List.of_mem_filter hmem
    have hwp : wpHit f nw := of_decide_eq_true hf
    rw [← hfst] at ha
    exact hwp.1 ha

theorem foldWaypoints_none_stable (ws : List (String × Waypoint))
    (f : Flight) (h : f.target_waypoint = none) :
    (ws.foldl checkWaypointStep f).target_waypoint = none ∧
    (ws.foldl checkWaypointStep f).target_heading = f.target_heading := by
  induction ws generalizing f with
  | nil => exact ⟨h, rfl⟩
  | cons nw rest ih =>
    rw [List.foldl_cons]
    have hstep : (checkWaypointStep f nw).target_waypoint = none ∧
        (checkWaypointStep f nw).target_heading = f.target_heading := by
      unfold checkWaypointStep
      dsimp only
      split_ifs with h1 h2 h3
      · exact ⟨h, rfl⟩
      · have h3b : f.target_waypoint = some nw.1 := h3
        rw [h] at h3b
        exact Option.noConfusion h3b
      · exact ⟨h, rfl⟩
      · exact ⟨h, rfl⟩
    obtain ⟨it, ith⟩ := ih (checkWaypointStep f nw) hstep.1
    exact ⟨it, ith.trans hstep.2⟩

theorem checkWaypointStep_keep_target (f : Flight) (nw : String × Waypoint)
    (w : String) (ht : f.target_waypoint = some w) (hne : nw.1 ≠ w) :
    (checkWaypointStep f nw).target_waypoint = some w
    ∧ (checkWaypointStep f nw).heading = f.heading
    ∧ (checkWaypointStep f nw).position = f.position
    ∧ ((checkWaypointStep f nw).passed_waypoints = f.passed_waypoints ∨
        (checkWaypointStep f nw).passed_waypoints =
          f.passed_waypoints ++ [nw.1]) := by
  unfold checkWaypointStep
  dsimp only
  split_ifs with h1 h2 h3
  · exact ⟨ht, rfl, rfl, Or.inl rfl⟩
  · have h3b : f.target_waypoint = some nw.1 := h3
    rw [ht] at h3b
    exact absurd (Option.some.inj h3b).symm hne
  · exact ⟨ht, rfl, rfl, Or.inr rfl⟩
  · exact ⟨ht, rfl, rfl, Or.inl rfl⟩

theorem foldWaypoints_target_clear (ws : List (String × Waypoint)) :
    ∀ (f : Flight) (w : String) (wp : Waypoint),
    (ws.map Prod.fst).Nodup →
    f.target_waypoint = some w → (w, wp) ∈ ws →
    w ∉ f.passed_waypoints →
    sqDist f.position wp.position < (1 / 2) ^ 2 →
    (ws.foldl checkWaypointStep f).target_waypoint = none ∧
    (ws.foldl checkWaypointStep f).target_heading = f.heading := by
  induction ws with
  | nil =>
    intro f w wp _ _ hmem
    exact absurd hmem (List.not_mem_nil _)
  | cons nw rest ih =>
    intro f w wp hnd ht hmem hnp hrange
    rw [List.map_cons, List.nodup_cons] at hnd
    obtain ⟨hnin, hnd2⟩ := hnd
    rw [List.foldl_cons]
    rcases List.mem_cons.mp hmem with heq | hmem2
    · subst heq
      have hstep : checkWaypointStep f (w, wp) =
          { f with
              passed_waypoints := f.passed_waypoints ++ [w],
              target_waypoint := none, target_heading := f.heading } := by
        unfold checkWaypointStep
        dsimp only
        rw [if_neg hnp, if_pos hrange, if_pos ht]
      rw [hstep]
      have h2 := foldWaypoints_none_stable rest
        { f with
            passed_waypoints := f.passed_waypoints ++ [w],
            target_waypoint := none, target_heading := f.heading } rfl
      exact ⟨h2.1, h2.2⟩
    · have hne : nw.1 ≠ w := by
        intro he
        refine hnin ?_
        rw [he]
        exact List.mem_map_of_mem Prod.fst hmem2
      obtain ⟨ht1, hh1, hp1, hpw1⟩ :=
        checkWaypointStep_keep_target f nw w ht hne
      have hnp1 : w ∉ (checkWaypointStep f nw).passed_waypoints := by
        rcases hpw1 with hcase | hcase <;> rw [hcase]
        · exact hnp
        · simp only [List.mem_append, List.mem_singleton]
          rintro (hin | heq2)
          · exact hnp hin
          · exact hne heq2.symm
      have h2 := ih (checkWaypointStep f nw) w wp hnd2 ht1 hmem2 hnp1
        (by rw [hp1]; exact hrange)
      exact ⟨h2.1, h2.2.trans hh1⟩

theorem update_passed_nodup (f : Flight) (dt now : ℚ) (trig : Trig)
    (hnd : f.passed_waypoints.Nodup) :
    (f.update dt now trig).passed_waypoints.Nodup := by
  unfold Flight.update
  dsimp only
  split_ifs with h1 h2 h3
  · exact hnd
  · exact hnd
  · exact hnd
  · rw [update_status_passed]
    apply check_waypoint_passage_nodup
    rw [integratePosition_passed, integrateHeading_passed,
      integrateSpeed_passed, integrateAltitude_passed, navStage_passed]
    exact hnd

/-- C8: one pass of `_check_waypoint_passage` appends exactly the names
of the registry waypoints that are within 0.5 nm and not yet passed (in
registry order); a per-tick `Flight.update` therefore keeps
`passed_waypoints` duplicate-free, and `apply_command` never touches it,
so each name appears at most once over the flight's lifetime.  If the
active `target_waypoint` is one of the newly passed waypoints, the
target is cleared and `target_heading` is frozen at the current
heading. -/
theorem C8_waypoint_passage (f : Flight) (cmd : FlightCommand)
    (dt now : ℚ) (trig : Trig) (hnd : f.passed_waypoints.Nodup) :
    f.check_waypoint_passage.passed_waypoints =
      f.passed_waypoints ++
        (WAYPOINTS.filter (fun nw => decide (wpHit f nw))).map Prod.fst
    ∧ (f.update dt now trig).passed_waypoints.Nodup
    ∧ (f.apply_command cmd).1.passed_waypoints = f.passed_waypoints
    ∧ (∀ w wp, f.target_waypoint = some w → (w, wp) ∈ WAYPOINTS →
        w ∉ f.passed_waypoints →
        sqDist f.position wp.position < (1 / 2) ^ 2 →
        f.check_waypoint_passage.target_waypoint = none ∧
        f.check_waypoint_passage.target_heading = f.heading) :=
  ⟨check_waypoint_passage_passed f, update_passed_nodup f dt now trig hnd,
    apply_command_passed f cmd,
    fun w wp ht hmem hnp hrange =>
      foldWaypoints_target_clear WAYPOINTS f w wp WAYPOINTS_names_nodup
        ht hmem hnp hrange⟩

/-- C8 witness: an arrival sitting on the FINAL fix and targeting it:
the passage clears the target and freezes the target heading at the
current heading. -/
theorem C8_witness :
    c8flight.check_waypoint_passage.target_waypoint = none
    ∧ c8flight.check_waypoint_passage.target_heading = c8flight.heading :=
  (C8_waypoint_passage c8flight {} 1 0 trivialTrig (by decide)).2.2.2 "FINAL"
    ⟨"FINAL", ⟨0, -15⟩, 1000⟩ rfl (by decide) (by decide)
    (by
      show sqDist ⟨0, -15⟩ ⟨0, -15⟩ < (1 / 2) ^ 2
      unfold sqDist
      norm_num)

/-! ### Separation scanning (C2, C5) -/

theorem sepLoop_collided_of_ex (prev : List (String × String)) :
    ∀ (l : List (Flight × Flight)) (count : Nat)
      (cur : List (String × String)),
    (∃ p ∈ l, collisionCond p.1 p.2) →
    ∃ f1 f2 c, sepLoop prev l count cur = SepOutcome.collided f1 f2 c ∧
      collisionCond f1 f2 := by
  intro l
  induction l with
  | nil =>
    intro count cur h
    obtain ⟨p, hp, _⟩ := h
    exact absurd hp (List.not_mem_nil p)
  | cons p rest ih =>
    intro count cur hex
    obtain ⟨f1, f2⟩ := p
    unfold sepLoop
    by_cases hc : collisionCond f1 f2
    · rw [if_pos hc]
      exact ⟨f1, f2, count, rfl, hc⟩
    · rw [if_neg hc]
      have hex2 : ∃ p ∈ rest, collisionCond p.1 p.2 := by
        obtain ⟨q, hq, hqc⟩ := hex
        rcases List.mem_cons.mp hq with rfl | hq2
        · exact absurd hqc hc
        · exact ⟨q, hq2, hqc⟩
      by_cases hnm : nearMissCond f1 f2
      · rw [if_pos hnm]
        exact ih _ _ hex2
      · rw [if_neg hnm]
        exact ih _ _ hex2

theorem curNearMisses_nil (cur : List (String × String)) :
    curNearMisses cur [] = cur := rfl

theorem curNearMisses_cons (cur : List (String × String)) (f1 f2 : Flight)
    (rest : List (Flight × Flight)) :
    curNearMisses cur ((f1, f2) :: rest) =
      if nearMissCond f1 f2 then
        curNearMisses
          (if pairKey f1.callsign f2.callsign ∈ cur then cur
           else cur ++ [pairKey f1.callsign f2.callsign]) rest
      else curNearMisses cur rest := rfl

theorem sepLoop_normal (prev : List (String × String)) :
    ∀ (l : List (Flight × Flight)) (count : Nat)
      (cur : List (String × String)),
    (∀ p ∈ l, ¬ collisionCond p.1 p.2) →
    sepLoop prev l count cur =
      SepOutcome.normal (count + newNearMissCount prev l)
        (curNearMisses cur l) := by
  intro l
  induction l with
  | nil =>
    intro count cur _
    unfold sepLoop newNearMissCount curNearMisses
    rfl
  | cons p rest ih =>
    intro count cur hnc
    obtain ⟨f1, f2⟩ := p
    unfold sepLoop
    rw [if_neg (hnc (f1, f2) (List.mem_cons_self _ _))]
    by_cases hnm : nearMissCond f1 f2
    · rw [if_pos hnm]
      rw [ih _ _ (fun q hq => hnc q (List.mem_cons_of_mem _ hq))]
      rw [curNearMisses_cons, if_pos hnm]
      unfold newNearMissCount
      rw [List.filter_cons]
      by_cases hmem : pairKey f1.callsign f2.callsign ∈ prev
      · rw [if_pos hmem,
          if_neg (by simp [hnm, hmem] : ¬((decide (nearMissCond f1 f2) &&
            !decide (pairKey f1.callsign f2.callsign ∈ prev)) = true))]
      · rw [if_neg hmem,
          if_pos (by simp [hnm, hmem] : (decide (nearMissCond f1 f2) &&
            !decide (pairKey f1.callsign f2.callsign ∈ prev)) = true)]
        congr 1
        rw [List.length_cons]
        omega
    · rw [if_neg hnm]
      rw [ih _ _ (fun q hq => hnc q (List.mem_cons_of_mem _ hq))]
      rw [curNearMisses_cons, if_neg hnm]
      unfold newNearMissCount
      rw [List.filter_cons,
        if_neg (by simp [hnm] : ¬((decide (nearMissCond f1 f2) &&
          !decide (pairKey f1.callsign f2.callsign ∈ prev)) = true))]

theorem curNearMisses_mem (l : List (Flight × Flight)) :
    ∀ (cur : List (String × String)) (k : String × String),
    k ∈ curNearMisses cur l ↔
      k ∈ cur ∨ ∃ p ∈ l, nearMissCond p.1 p.2 ∧
        k = pairKey p.1.callsign p.2.callsign := by
  induction l with
  | nil =>
    intro cur k
    rw [curNearMisses_nil]
    simp
  | cons p rest ih =>
    intro cur k
    obtain ⟨f1, f2⟩ := p
    rw [curNearMisses_cons]
    by_cases hnm : nearMissCond f1 f2
    · rw [if_pos hnm, ih]
      by_cases hc : pairKey f1.callsign f2.callsign ∈ cur
      · rw [if_pos hc]
        constructor
        · rintro (hk | ⟨q, hq, hqn, hqk⟩)
          · exact Or.inl hk
          · exact Or.inr ⟨q, List.mem_cons_of_mem _ hq, hqn, hqk⟩
        · rintro (hk | ⟨q, hq2, hqn, hqk⟩)
          · exact Or.inl hk
          · rcases List.mem_cons.mp hq2 with rfl | hq3
            · exact Or.inl (by rw [hqk]; exact hc)
            · exact Or.inr ⟨q, hq3, hqn, hqk⟩
      · rw [if_neg hc]
        constructor
        · rintro (hk | ⟨q, hq, hqn, hqk⟩)
          · rcases List.mem_append.mp hk with hk2 | hk2
            · exact Or.inl hk2
            · exact Or.inr ⟨(f1, f2), List.mem_cons_self _ _, hnm,
                List.mem_singleton.mp hk2⟩
          · exact Or.inr ⟨q, List.mem_cons_of_mem _ hq, hqn, hqk⟩
        · rintro (hk | ⟨q, hq2, hqn, hqk⟩)
          · exact Or.inl (List.mem_append.mpr (Or.inl hk))
          · rcases List.mem_cons.mp hq2 with rfl | hq3
            · exact Or.inl (List.mem_append.mpr (Or.inr
                (List.mem_singleton.mpr hqk)))
            · exact Or.inr ⟨q, hq3, hqn, hqk⟩
    · rw [if_neg hnm, ih]
      constructor
      · rintro (hk | ⟨q, hq, hqn, hqk⟩)
        · exact Or.inl hk
        · exact Or.inr ⟨q, List.mem_cons_of_mem _ hq, hqn, hqk⟩
      · rintro (hk | ⟨q, hq2, hqn, hqk⟩)
        · exact Or.inl hk
        · rcases List.mem_cons.mp hq2 with rfl | hq3
          · exact absurd hqn hnm
          · exact Or.inr ⟨q, hq3, hqn, hqk⟩

theorem c2_pair_collides : collisionCond c2flightA c2flightB := by
  constructor
  · show sqDist ⟨0, 0⟩ ⟨0, 0⟩ < COLLISION_DISTANCE_NM ^ 2
    unfold sqDist COLLISION_DISTANCE_NM
    norm_num
  · show |(1000 : ℚ) - 1200| < COLLISION_ALTITUDE
    unfold COLLISION_ALTITUDE
    norm_num

/-- C2: a pair of airborne-active flights within 0.15 nm and 500 ft
makes `check_separations` set the sticky failure flag, record the
colliding pair's callsigns and the failure reason; a failed simulator's
`update` is a no-op (no kinematics, no conflict checks), and only
`reset` clears the flag, the pair, the live flights and every counter. -/
theorem C2_collision_sticky (s : ATCSimulator) (dt now now2 : ℚ)
    (trig : Trig) (hnf : s.failed = false)
    (hex : ∃ p ∈ allPairs s.airborne, collisionCond p.1 p.2) :
    (∃ f1 f2, collisionCond f1 f2
      ∧ s.check_separations.failed = true
      ∧ s.check_separations.collision_pair =
          some (pairKey f1.callsign f2.callsign)
      ∧ s.check_separations.failure_reason =
          some (FailureReason.collision f1.callsign f2.callsign))
    ∧ (∀ s2 : ATCSimulator, s2.failed = true → s2.update dt now trig = s2)
    ∧ ((s.reset now2).failed = false ∧ (s.reset now2).collision_pair = none
        ∧ (s.reset now2).flights = []
        ∧ (s.reset now2).near_miss_count = 0
        ∧ (s.reset now2).landed_count = 0
        ∧ (s.reset now2).departed_count = 0
        ∧ (s.reset now2).active_near_misses = []) := by
  refine ⟨?_, ?_, rfl, rfl, rfl, rfl, rfl, rfl, rfl⟩
  · obtain ⟨f1, f2, c, hsl, hcol⟩ :=
      sepLoop_collided_of_ex s.active_near_misses (allPairs s.airborne) 0 []
        hex
    have hcs : s.check_separations =
        { s with
            failed := true,
            failure_reason :=
              some (FailureReason.collision f1.callsign f2.callsign),
            collision_pair := some (pairKey f1.callsign f2.callsign),
            near_miss_count := s.near_miss_count + c } := by
      unfold ATCSimulator.check_separations
      rw [hnf, if_neg Bool.false_ne_true, hsl]
    exact ⟨f1, f2, hcol, by rw [hcs], by rw [hcs], by rw [hcs]⟩
  · intro s2 h2
    unfold ATCSimulator.update
    rw [h2, if_pos rfl]

/-- C2 witness: two co-located arrivals 200 ft apart trip the sticky
failure flag. -/
theorem C2_witness :
    c2sim.check_separations.failed = true := by
  obtain ⟨f1, f2, _, hfail, _, _⟩ :=
    (C2_collision_sticky c2sim 1 0 0 trivialTrig rfl
      ⟨(c2flightA, c2flightB), by decide, c2_pair_collides⟩).1
  exact hfail

/-- C5 counterexample: a colliding pair is also a near-miss pair that is
new against the empty previous active set, yet the pass increments
`near_miss_count` by 0 (the collision `return` aborts the scan before
the near-miss bookkeeping) and never records the pair in the active
set, refuting the claim's unconditional per-pass counting law. -/
theorem C5_counterexample :
    nearMissCond c2flightA c2flightB
    ∧ c2sim.near_miss_count = 0
    ∧ c2sim.active_near_misses = []
    ∧ c2sim.check_separations.near_miss_count = 0
    ∧ c2sim.check_separations.active_near_misses = [] := by
  have hnm : nearMissCond c2flightA c2flightB := by
    constructor
    · show sqDist ⟨0, 0⟩ ⟨0, 0⟩ < NEAR_MISS_DISTANCE_NM ^ 2
      unfold sqDist NEAR_MISS_DISTANCE_NM
      norm_num
    · show |(1000 : ℚ) - 1200| < NEAR_MISS_ALTITUDE
      unfold NEAR_MISS_ALTITUDE
      norm_num
  have hpairs : allPairs c2sim.airborne = [(c2flightA, c2flightB)] := by
    decide
  have hsl : sepLoop c2sim.active_near_misses (allPairs c2sim.airborne) 0 []
      = SepOutcome.collided c2flightA c2flightB 0 := by
    rw [hpairs]
    unfold sepLoop
    rw [if_pos c2_pair_collides]
  have hcs : c2sim.check_separations =
      { c2sim with
          failed := true,
          failure_reason :=
            some (FailureReason.collision "UAL100" "DAL200"),
          collision_pair := some (pairKey "UAL100" "DAL200"),
          near_miss_count := c2sim.near_miss_count + 0 } := by
    unfold ATCSimulator.check_separations
    rw [show c2sim.failed = false from rfl, if_neg Bool.false_ne_true, hsl]
    rfl
  exact ⟨hnm, rfl, rfl, by rw [hcs]; rfl, by rw [hcs]; rfl⟩

/-- C5 (amended): on a pass in which no pair is within the collision
thresholds, `near_miss_count` grows by exactly the number of near-miss
pairs absent from the previous pass's active set, and the new active set
holds exactly the keys of the currently conflicting pairs — so a
sustained conflict is counted once and can only be re-counted after
leaving and re-entering the thresholds.  (A collision aborts the scan
mid-pass; see the counterexample.) -/
theorem C5_near_miss_count (s : ATCSimulator) (hnf : s.failed = false)
    (hnc : ∀ p ∈ allPairs s.airborne, ¬ collisionCond p.1 p.2) :
    s.check_separations.near_miss_count =
      s.near_miss_count +
        newNearMissCount s.active_near_misses (allPairs s.airborne)
    ∧ s.check_separations.active_near_misses =
        curNearMisses [] (allPairs s.airborne)
    ∧ (∀ k, k ∈ s.check_separations.active_near_misses ↔
        ∃ p ∈ allPairs s.airborne, nearMissCond p.1 p.2 ∧
          k = pairKey p.1.callsign p.2.callsign) := by
  have hcs : s.check_separations =
      { s with
          near_miss_count := s.near_miss_count +
            (0 + newNearMissCount s.active_near_misses (allPairs s.airborne)),
          active_near_misses := curNearMisses [] (allPairs s.airborne) } := by
    unfold ATCSimulator.check_separations
    rw [hnf, if_neg Bool.false_ne_true,
      sepLoop_normal s.active_near_misses (allPairs s.airborne) 0 [] hnc]
  refine ⟨?_, by rw [hcs], ?_⟩
  · rw [hcs]
    show s.near_miss_count +
        (0 + newNearMissCount s.active_near_misses (allPairs s.airborne)) = _
    rw [Nat.zero_add]
  · intro k
    rw [hcs]
    show k ∈ curNearMisses [] (allPairs s.airborne) ↔ _
    rw [curNearMisses_mem (allPairs s.airborne) [] k]
    simp

/-- C5 witness: two arrivals 0.3 nm apart at the same altitude — a near
miss, not a collision — at the counting law's concrete instance. -/
theorem C5_witness :
    c5sim.check_separations.near_miss_count =
      c5sim.near_miss_count +
        newNearMissCount c5sim.active_near_misses (allPairs c5sim.airborne)
    := by
  have hnc : ∀ p ∈ allPairs c5sim.airborne, ¬ collisionCond p.1 p.2 := by
    intro p hp
    have hps : allPairs c5sim.airborne = [(c5flightA, c5flightB)] := rfl
    rw [hps] at hp
    rcases List.mem_cons.mp hp with rfl | hp2
    · intro hcol
      have h1 : sqDist c5flightA.position c5flightB.position <
          COLLISION_DISTANCE_NM ^ 2 := hcol.1
      rw [show sqDist c5flightA.position c5flightB.position =
          ((0 : ℚ) - 3 / 10) ^ 2 + ((0 : ℚ) - 0) ^ 2 from rfl] at h1
      unfold COLLISION_DISTANCE_NM at h1
      norm_num at h1
    · exact absurd hp2 (List.not_mem_nil p)
  exact (C5_near_miss_count c5sim rfl hnc).1

/-! ### Speed and altitude integration through one tick (C4) -/

theorem update_speed_char (f : Flight) (dt now : ℚ) (trig : Trig)
    (hterm : ¬(f.status = FlightStatus.LANDED ∨
      f.status = FlightStatus.DEPARTED ∨ f.status = FlightStatus.AT_GATE))
    (hls : f.status ≠ FlightStatus.LANDING) :
    (f.update dt now trig).speed =
      if |f.speed - f.target_speed| > 1 then
        if f.speed < f.target_speed then min (f.speed + 5 * dt) f.target_speed
        else max (f.speed - 5 * dt) f.target_speed
      else f.speed := by
  unfold Flight.update
  rw [if_neg hterm]
  have hstat : ((integratePosition (integrateHeading (integrateSpeed
      (integrateAltitude (navStage f trig) dt) dt) dt) dt
      trig).check_waypoint_passage).status ≠ FlightStatus.LANDING := by
    rw [check_waypoint_passage_status, integratePosition_status,
      integrateHeading_status, integrateSpeed_status,
      integrateAltitude_status, navStage_status]
    exact hls
  rw [update_status_speed _ now hstat, check_waypoint_passage_speed,
    integratePosition_speed, integrateHeading_speed, integrateSpeed_speed]
  simp only [integrateAltitude_speed, integrateAltitude_target_speed,
    navStage_speed, navStage_target_speed]

theorem update_altitude_char (f : Flight) (dt now : ℚ) (trig : Trig)
    (hterm : ¬(f.status = FlightStatus.LANDED ∨
      f.status = FlightStatus.DEPARTED ∨ f.status = FlightStatus.AT_GATE))
    (hls : f.status ≠ FlightStatus.LANDING) :
    (f.update dt now trig).altitude =
      if |f.altitude - f.target_altitude| > 10 then
        max 0 (if f.altitude < f.target_altitude then
          f.altitude + f.characteristics.climb_rate * (dt / 60)
        else f.altitude - f.characteristics.descent_rate * (dt / 60))
      else f.altitude := by
  unfold Flight.update
  rw [if_neg hterm]
  have hstat : ((integratePosition (integrateHeading (integrateSpeed
      (integrateAltitude (navStage f trig) dt) dt) dt) dt
      trig).check_waypoint_passage).status ≠ FlightStatus.LANDING := by
    rw [check_waypoint_passage_status, integratePosition_status,
      integrateHeading_status, integrateSpeed_status,
      integrateAltitude_status, navStage_status]
    exact hls
  rw [update_status_altitude _ now hstat, check_waypoint_passage_altitude,
    integratePosition_altitude, integrateHeading_altitude,
    integrateSpeed_altitude, integrateAltitude_altitude]
  simp only [navStage_altitude, navStage_target_altitude,
    navStage_characteristics]

/-- C4 (amended): in one tick of a flight outside the terminal hold
states and not in the `LANDING` touchdown snap, with `dt ≥ 0`: speed
moves monotonically toward `target_speed` and never overshoots
(unconditionally — the integrator clamps with `min`/`max`); altitude
moves monotonically toward a non-negative `target_altitude` and does not
overshoot provided the tick's climb or descent step
`rate × (dt/60)` does not exceed the remaining gap (the code has no
clamp at the target, only `max 0`; see the counterexample). -/
theorem C4_monotone_approach (f : Flight) (dt now : ℚ) (trig : Trig)
    (hdt : 0 ≤ dt)
    (hterm : ¬(f.status = FlightStatus.LANDED ∨
      f.status = FlightStatus.DEPARTED ∨ f.status = FlightStatus.AT_GATE))
    (hls : f.status ≠ FlightStatus.LANDING)
    (hcr : 0 ≤ f.characteristics.climb_rate)
    (hdr : 0 ≤ f.characteristics.descent_rate)
    (htgt : 0 ≤ f.target_altitude)
    (hstepc : f.altitude < f.target_altitude →
      f.characteristics.climb_rate * (dt / 60) ≤
        f.target_altitude - f.altitude)
    (hstepd : f.target_altitude < f.altitude →
      f.characteristics.descent_rate * (dt / 60) ≤
        f.altitude - f.target_altitude) :
    (f.speed ≤ f.target_speed →
      f.speed ≤ (f.update dt now trig).speed ∧
        (f.update dt now trig).speed ≤ f.target_speed)
    ∧ (f.target_speed ≤ f.speed →
        f.target_speed ≤ (f.update dt now trig).speed ∧
          (f.update dt now trig).speed ≤ f.speed)
    ∧ (f.altitude ≤ f.target_altitude →
        f.altitude ≤ (f.update dt now trig).altitude ∧
          (f.update dt now trig).altitude ≤ f.target_altitude)
    ∧ (f.target_altitude ≤ f.altitude →
        f.target_altitude ≤ (f.update dt now trig).altitude ∧
          (f.update dt now trig).altitude ≤ f.altitude) := by
  rw [update_speed_char f dt now trig hterm hls,
    update_altitude_char f dt now trig hterm hls]
  refine ⟨?_, ?_, ?_, ?_⟩
  · intro hle
    constructor
    · split_ifs with ha hb
      · exact le_min (by linarith) hle
      · have heq : f.speed = f.target_speed := le_antisymm hle (not_lt.mp hb)
        rw [heq, sub_self, abs_zero] at ha
        linarith
      · exact le_refl _
    · split_ifs with ha hb
      · exact min_le_right _ _
      · have heq : f.speed = f.target_speed := le_antisymm hle (not_lt.mp hb)
        rw [heq, sub_self, abs_zero] at ha
        linarith
      · exact hle
  · intro hle
    constructor
    · split_ifs with ha hb
      · linarith
      · exact le_max_right _ _
      · exact hle
    · split_ifs with ha hb
      · linarith
      · exact max_le (by linarith) hle
      · exact le_refl _
  · intro hle
    constructor
    · split_ifs with ha hb
      · refine le_max_of_le_right ?_
        have hcs : 0 ≤ f.characteristics.climb_rate * (dt / 60) :=
          mul_nonneg hcr (div_nonneg hdt (by norm_num))
        linarith
      · have heq : f.altitude = f.target_altitude :=
          le_antisymm hle (not_lt.mp hb)
        rw [heq, sub_self, abs_zero] at ha
        linarith
      · exact le_refl _
    · split_ifs with ha hb
      · exact max_le htgt (by linarith [hstepc hb])
      · have heq : f.altitude = f.target_altitude :=
          le_antisymm hle (not_lt.mp hb)
        rw [heq, sub_self, abs_zero] at ha
        linarith
      · exact hle
  · intro hle
    constructor
    · split_ifs with ha hb
      · linarith
      · have hlt : f.target_altitude < f.altitude := by
          rcases lt_or_eq_of_le hle with h | h
          · exact h
          · rw [← h, sub_self, abs_zero] at ha
            linarith
        refine le_max_of_le_right ?_
        linarith [hstepd hlt]
      · exact hle
    · split_ifs with ha hb
      · linarith
      · refine max_le ?_ ?_
        · linarith
        · have hds : 0 ≤ f.characteristics.descent_rate * (dt / 60) :=
            mul_nonneg hdr (div_nonneg hdt (by norm_num))
          linarith
      · exact le_refl _

/-- C4 counterexample: an arrival 15 ft below its target climbs a full
`climb_rate × (dt/60)` step with no clamp at the target: altitude jumps
from 1000 ft past the 1015 ft target to 3500 ft in one 60 s tick,
refuting the claim's "never overshoot within one update". -/
theorem C4_counterexample :
    c4flight.altitude < c4flight.target_altitude
    ∧ c4flight.target_altitude = 1015
    ∧ (c4flight.update 60 0 trivialTrig).altitude = 3500
    ∧ c4flight.target_altitude < (c4flight.update 60 0 trivialTrig).altitude
    := by
  have hchar := update_altitude_char c4flight 60 0 trivialTrig (by decide)
    (by decide)
  have hval : (c4flight.update 60 0 trivialTrig).altitude = 3500 := by
    rw [hchar]
    rw [if_pos (show |c4flight.altitude - c4flight.target_altitude| > 10 by
      show |(1000 : ℚ) - 1015| > 10
      norm_num)]
    rw [if_pos (show c4flight.altitude < c4flight.target_altitude by decide)]
    show max 0 ((1000 : ℚ) + 2500 * (60 / 60)) = 3500
    norm_num
  exact ⟨by decide, rfl, hval, by rw [hval]; decide⟩

/-- C4 witness: a B738 1000 ft below a 4000 ft target with a one-second
tick: altitude rises and stays at most the target. -/
theorem C4_witness :
    c4wflight.altitude ≤ (c4wflight.update 1 0 trivialTrig).altitude
    ∧ (c4wflight.update 1 0 trivialTrig).altitude ≤
        c4wflight.target_altitude :=
  (C4_monotone_approach c4wflight 1 0 trivialTrig (by decide) (by decide)
    (by decide) (by decide) (by decide) (by decide)
    (fun _ => by
      show (2500 : ℚ) * (1 / 60) ≤ 4000 - 1000
      norm_num)
    (fun h => absurd h (by decide))).2.2.1 (by decide)

end SimApp


end ATC
